import Mathlib

/-!
Verification development for the dtle MySQL CDC core.

The definitions below are a shallow embedding of three parts of the
repository:

* the source Inspector (`drivers/mysql/mysql/inspect.go`): grant, binlog and
  table validation, and replication-key selection;
* the Oracle applier (`ApplierOracle` in the `oracle` package): NATS segment
  handling, `ApplyEventQueries` with its transactional statement loop and the
  1 MiB row-batching renderer;
* the SQL AST merge engine (`inspector` package): `mergeAlterToTable` over a
  heap model that reproduces Go slice and pointer aliasing, and the
  `TableChecker` column-resolution logic.

Database round trips are modelled by passing the values a query would scan
as explicit arguments (or as an oracle function mapping a statement to the
error the server would return).  Helper functions whose bodies live outside
the provided sources are modelled from the specification and marked as such
in their doc comments.
-/

namespace Dtle

/-! ## String helpers (Go strings.Contains) -/

/-- Character-list test: the first list is an initial segment of the second. -/
def leadsWith : List Char → List Char → Bool
  | [], _ => true
  | _ :: _, [] => false
  | a :: as, b :: bs => a == b && leadsWith as bs

/-- Substring search on character lists; models Go `strings.Contains`. -/
def containsSeq (sub : List Char) : List Char → Bool
  | [] => leadsWith sub []
  | c :: rest => leadsWith sub (c :: rest) || containsSeq sub rest

/-- Go `strings.Contains hay sub`. -/
def strContains (hay sub : String) : Bool := containsSeq sub.data hay.data

/-- Modelled from the spec: `base.StringContainsAll` (not under src/) holds
when the string contains every one of the given substrings. -/
def stringContainsAll (hay : String) (subs : List String) : Bool :=
  subs.all fun sub => strContains hay sub

/-! ## Inspector: validateGrants (inspect.go lines 186-240) -/

/-- The five accumulation flags of the `show grants` row scan. -/
structure GrantFlags where
  foundAll : Bool
  foundSuper : Bool
  foundReplicationClient : Bool
  foundReplicationSlave : Bool
  foundDBAll : Bool
deriving DecidableEq

/-- One step of the `QueryRowsMap` callback: each grant line switches the
matching flags on (never off). -/
def scanGrant (f : GrantFlags) (grant : String) : GrantFlags where
  foundAll := f.foundAll || strContains grant "GRANT ALL PRIVILEGES ON"
  foundSuper := f.foundSuper || strContains grant "SUPER"
  foundReplicationClient := f.foundReplicationClient || strContains grant "REPLICATION CLIENT"
  foundReplicationSlave := f.foundReplicationSlave || strContains grant "REPLICATION SLAVE"
  foundDBAll := f.foundDBAll || stringContainsAll grant ["SELECT"]

/-- The error message of the insufficient-privileges failure. -/
def insufficientPrivilegesMsg : String :=
  "user has insufficient privileges for extractor. Needed: SUPER|REPLICATION CLIENT, REPLICATION SLAVE and ALL on *.*"

/-- `Inspector.validateGrants`.  `grants` is the list of grant strings the
`show grants for current_user()` query returns (all row values flattened, as
the Go callback iterates every row map value).  Returns `none` on success. -/
def validateGrants (skipPrivilegeCheck : Bool) (grants : List String) : Option String :=
  if skipPrivilegeCheck then none
  else
    let f := grants.foldl scanGrant ⟨false, false, false, false, false⟩
    if f.foundAll then none
    else if f.foundSuper && f.foundReplicationSlave && f.foundDBAll then none
    else if f.foundReplicationClient && f.foundReplicationSlave && f.foundDBAll then none
    else some insufficientPrivilegesMsg

/-! ## Inspector: validateBinlogs (inspect.go lines 255-278) -/

/-- Result of `validateBinlogs`: the possible error and the value left in
`mysqlContext.BinlogRowImage`. -/
structure BinlogsResult where
  err : Option String
  binlogRowImage : String
deriving DecidableEq

/-- Go `strings.ToUpper` (character-wise upper-casing). -/
def goToUpper (s : String) : String := ⟨s.data.map Char.toUpper⟩

/-- `Inspector.validateBinlogs`.  `logBin` and `binlogFormat` are the scanned
values of `select @@log_bin, @@binlog_format`; `rowImageScan` is the scanned
value of `select @@binlog_row_image` (`none` when that query fails, as on
MySQL 5.5); `binlogRowImage0` is the descriptor field before the call. -/
def validateBinlogs (logBin : Bool) (binlogFormat : String) (rowImageScan : Option String)
    (binlogRowImage0 : String) : BinlogsResult :=
  if !logBin then ⟨some "must have binary logs enabled", binlogRowImage0⟩
  else if binlogFormat ≠ "ROW" then ⟨some "it is required to set binlog_format=row", binlogRowImage0⟩
  else
    let ri := match rowImageScan with
      | some v => v
      | none => "FULL"
    ⟨none, goToUpper ri⟩

/-! ## Inspector: unique-key selection (inspect.go lines 99-148) -/

/-- MySQL column type tags, as far as the key-validity check inspects them
(`umconf.FloatColumnType` / `umconf.JSONColumnType`, everything else other). -/
inductive MySQLColumnType
  | floatColumn
  | jsonColumn
  | otherColumn (tag : Nat)
deriving DecidableEq

/-- A column of a unique-key candidate after `ApplyColumnTypes` filled the
type tags in. -/
structure UKColumn where
  name : String
  tp : MySQLColumnType
deriving DecidableEq

/-- `common.UniqueKey`: one candidate from `getCandidateUniqueKeys`. -/
structure UniqueKey where
  name : String
  columns : List UKColumn
  hasNullable : Bool
  isAutoIncrement : Bool
  lastMaxVals : List String
deriving DecidableEq

/-- Modelled from the spec: `common.UniqueKey.IsPrimary` (not under src/) —
the PRIMARY KEY is the candidate whose index name is `PRIMARY`. -/
def UniqueKey.isPrimary (uk : UniqueKey) : Bool := uk.name == "PRIMARY"

/-- The per-candidate validity computation of `ValidateOriginalTable`:
the column-type loop, then the nullable check, then the row-image check. -/
def uniqueKeyIsValid (binlogRowImage : String) (uk : UniqueKey) : Bool :=
  let afterTypes := uk.columns.foldl
    (fun valid column =>
      match column.tp with
      | .floatColumn => false
      | .jsonColumn => false
      | .otherColumn _ => valid)
    true
  let afterNullable := if uk.hasNullable then false else afterTypes
  if !uk.isPrimary && binlogRowImage ≠ "FULL" then false else afterNullable

/-- The selection loop of `ValidateOriginalTable`: a valid PRIMARY key is
taken immediately (`break`); otherwise the first valid candidate is kept. -/
def selectUniqueKey (binlogRowImage : String) : List UniqueKey → Option UniqueKey → Option UniqueKey
  | [], acc => acc
  | uk :: rest, acc =>
    if uniqueKeyIsValid binlogRowImage uk then
      if uk.isPrimary then some uk
      else
        match acc with
        | none => selectUniqueKey binlogRowImage rest (some uk)
        | some a => selectUniqueKey binlogRowImage rest (some a)
    else selectUniqueKey binlogRowImage rest acc

/-- Spec-side candidate validity, following the claim wording: no FLOAT or
JSON column, `hasNullable` false, and PRIMARY or row image FULL. -/
def validCandidate (binlogRowImage : String) (uk : UniqueKey) : Bool :=
  uk.columns.all (fun c =>
    match c.tp with
    | .floatColumn => false
    | .jsonColumn => false
    | .otherColumn _ => true)
  && !uk.hasNullable && (uk.isPrimary || binlogRowImage == "FULL")

/-- Spec-side selection rule: among valid candidates prefer PRIMARY,
otherwise the first valid candidate in discovery order. -/
def specChosenKey (binlogRowImage : String) (uks : List UniqueKey) : Option UniqueKey :=
  let valids := uks.filter (validCandidate binlogRowImage)
  match valids.find? (fun uk => uk.isPrimary) with
  | some p => some p
  | none => valids.head?

/-! ## Inspector: ValidateOriginalTable (inspect.go lines 79-166) -/

/-- The database-derived inputs of one `ValidateOriginalTable` call:
the `validateTable` outcome, the outcome of
`InspectTableColumnsAndUniqueKeys`, the descriptor's binlog row image, and
the outcome of parsing the optional row-filter predicate
(`common.NewWhereCtx`, not under src/, modelled as its error result). -/
structure TableValidationIn where
  validateTableErr : Option String
  inspectRes : Except String (List UKColumn × List UniqueKey)
  binlogRowImage : String
  whereParseErr : Option String

/-- Result of `ValidateOriginalTable`: the returned error and the
`table.UseUniqueKey` field it left behind. -/
structure TableValidationOut where
  err : Option String
  useUniqueKey : Option UniqueKey
deriving DecidableEq

/-- `Inspector.ValidateOriginalTable`.  Mirrors the source flow: fail on
`validateTable`, fail on column/key inspection, run the key-selection loop,
then parse the where predicate — whose failure is logged with
`logger.Error` and returned (the source carries a TODO saying it should
only warn). -/
def validateOriginalTable (inp : TableValidationIn) : TableValidationOut :=
  match inp.validateTableErr with
  | some e => ⟨some e, none⟩
  | none =>
    match inp.inspectRes with
    | .error e => ⟨some e, none⟩
    | .ok (_, uniqueKeys) =>
      let chosen := selectUniqueKey inp.binlogRowImage uniqueKeys none
      match inp.whereParseErr with
      | some e => ⟨some e, chosen⟩
      | none => ⟨none, chosen⟩

/-! ## Applier: error predicates and value escaping -/

/-- A database error together with the two classification predicates the
applier consults.  The predicate bodies (`sql.IgnoreError`,
`sql.IgnoreExistsError`) are not under src/; modelled from the spec:
`ignorable` says the error is benign, `existsConflict` says it is an
existence conflict. -/
structure DBErr where
  msg : String
  ignorable : Bool
  existsConflict : Bool
deriving DecidableEq

/-- Modelled from the spec: `sql.IgnoreError` — the error is benign and the
statement may be swallowed. -/
def IgnoreError (e : DBErr) : Bool := e.ignorable

/-- Modelled from the spec: `sql.IgnoreExistsError` — the error is an
existence conflict (swallowed without even a warning log). -/
def IgnoreExistsError (e : DBErr) : Bool := e.existsConflict

/-- A single-quote character, written via its code point. -/
def sq : String := String.singleton (Char.ofNat 39)

/-- Modelled from the spec: `sql.EscapeValue` applies MySQL-standard
escaping to one character. -/
def escapeChar (c : Char) : String :=
  if c.toNat = 0 then "\\0"
  else if c.toNat = 39 then "\\" ++ sq
  else if c.toNat = 34 then "\\\""
  else if c.toNat = 8 then "\\b"
  else if c.toNat = 10 then "\\n"
  else if c.toNat = 13 then "\\r"
  else if c.toNat = 9 then "\\t"
  else if c.toNat = 26 then "\\Z"
  else if c.toNat = 92 then "\\\\"
  else String.singleton c

/-- Modelled from the spec: `sql.EscapeValue` — MySQL-standard escaping of a
cell value. -/
def escapeValue (s : String) : String :=
  s.data.foldl (fun acc c => acc ++ escapeChar c) ""

/-- Modelled from the spec: `umconf.EscapeName` backtick-quotes an
identifier (spec scenario 5 shows the resulting statement shape). -/
def escapeName (name : String) : String := "`" ++ name ++ "`"

/-! ## Applier: ApplyEventQueries (oracle ApplierOracle, lines 507-627) -/

/-- `common.DumpEntry`, restricted to the fields `ApplyEventQueries` reads.
A cell of `valuesX` is `none` for a NULL (`nil *[]byte`) cell. -/
structure DumpEntry where
  tableSchema : String
  tableName : String
  systemVariablesStatement : String
  sqlMode : String
  dbSQL : String
  tbSQL : List String
  valuesX : List (List (Option String))

/-- Outcome of the `execQuery` closure for one statement. -/
inductive ExecOutcome
  | okDone
  | ignored (warned : Bool)
  | fatal (e : DBErr)
deriving DecidableEq

/-- The `execQuery` closure of `ApplyEventQueries`: a failing statement is
fatal unless `IgnoreError` holds; a swallowed error logs a warning unless
`IgnoreExistsError` also holds.  `exec` maps a statement to the error the
destination returns for it (`none` = success). -/
def execQueryStep (exec : String → Option DBErr) (q : String) : ExecOutcome :=
  match exec q with
  | none => .okDone
  | some e =>
    if !IgnoreError e then .fatal e
    else .ignored (!IgnoreExistsError e)

/-- The DDL/statement loop of `ApplyEventQueries`: empty statements are
skipped, execution stops at the first fatal error.  Returns the statements
actually attempted and the fatal error, if any. -/
def runQueries (exec : String → Option DBErr) : List String → List String × Option DBErr
  | [] => ([], none)
  | q :: rest =>
    if q = "" then runQueries exec rest
    else
      match execQueryStep exec q with
      | .fatal e => ([q], some e)
      | _ =>
        let r := runQueries exec rest
        (q :: r.1, r.2)

/-- The inner cell loop of the row renderer: comma separation via the
`firstCol` flag, `NULL` for nil cells, quoted escaped text otherwise. -/
def rowSQLCells (cells : List (Option String)) : String :=
  (cells.foldl
    (fun (acc : String × Bool) cell =>
      let withSep := if acc.2 then acc.1 else acc.1 ++ ","
      match cell with
      | some v => (withSep ++ sq ++ escapeValue v ++ sq, false)
      | none => (withSep ++ "NULL", false))
    ("", true)).1

/-- The UTF-8 byte length of a string: Go's `bytes.Buffer.Len`. -/
def strByteLen (s : String) : Nat :=
  s.data.foldl (fun n c => n + c.utf8Size) 0

/-- The 1 MiB flush threshold (`BufSizeLimit`). -/
def BufSizeLimit : Nat := 1 * 1024 * 1024

/-- The row loop of `ApplyEventQueries`: rows are appended to the buffer
(opening a new `replace into` statement when the buffer is empty) and the
buffer is flushed through `execQuery` when the last row has been written or
the buffer holds at least `BufSizeLimit` bytes.  Returns the flushed
statements in order and the first fatal error. -/
def rowLoop (exec : String → Option DBErr) (schema table : String) :
    List (List (Option String)) → String → List String × Option DBErr
  | [], _ => ([], none)
  | r :: rs, buf =>
    let buf1 :=
      (if strByteLen buf = 0 then
        "replace into " ++ escapeName schema ++ "." ++ escapeName table ++ " values ("
      else buf ++ ",(") ++ rowSQLCells r ++ ")"
    let needInsert := rs.isEmpty || decide (BufSizeLimit ≤ strByteLen buf1)
    if needInsert then
      match execQueryStep exec buf1 with
      | .fatal e => ([buf1], some e)
      | _ =>
        let rest := rowLoop exec schema table rs ""
        (buf1 :: rest.1, rest.2)
    else rowLoop exec schema table rs buf1

/-- The statements the row loop renders when every execution succeeds: the
pure rendering behaviour of the bulk-load batcher. -/
def renderBatches (schema table : String) (rows : List (List (Option String))) : List String :=
  (rowLoop (fun _ => none) schema table rows "").1

/-- Observable outcome of one `ApplyEventQueries` call. -/
structure ApplyOutcome where
  preTxErr : Option DBErr
  txStarted : Bool
  txExecuted : List String
  returnedErr : Option DBErr
  commitAttempted : Bool
  committed : Bool
  onErrorDead : Bool
  rowsReplayedDelta : Nat
deriving DecidableEq

/-- The session statement disabling foreign-key checks. -/
def fkOffQuery : String := "SET @@session.foreign_key_checks = 0"

/-- Assembles the part of the outcome fixed by the deferred function: once
the transaction has begun, `tx.Commit()` runs on every return path (the
statement error included), `onError(TaskStateDead, …)` fires only when that
commit fails, and the row counter is bumped regardless. -/
def finishTx (commitErr : Option DBErr) (nRows : Nat) (executed : List String)
    (returned : Option DBErr) : ApplyOutcome where
  preTxErr := none
  txStarted := true
  txExecuted := executed
  returnedErr := returned
  commitAttempted := true
  committed := commitErr.isNone
  onErrorDead := !commitErr.isNone
  rowsReplayedDelta := nRows

/-- `ApplierOracle.ApplyEventQueries`.  `execConn` answers the pre-transaction
sysvar/sql_mode statements run on each worker connection (`a.dbs`, of which
there are `nConns`); `exec` answers `tx.ExecContext`; `beginErr` and
`commitErr` are the outcomes of `BeginTx` and of the deferred `Commit`. -/
def applyEventQueries (execConn exec : String → Option DBErr)
    (nConns : Nat) (beginErr commitErr : Option DBErr) (entry : DumpEntry) : ApplyOutcome :=
  let preSysvar : Option DBErr :=
    if entry.systemVariablesStatement ≠ "" && decide (0 < nConns) then
      execConn entry.systemVariablesStatement
    else none
  match preSysvar with
  | some e => ⟨some e, false, [], some e, false, false, false, 0⟩
  | none =>
    let preSqlMode : Option DBErr :=
      if entry.sqlMode ≠ "" && decide (0 < nConns) then execConn entry.sqlMode else none
    match preSqlMode with
    | some e => ⟨some e, false, [], some e, false, false, false, 0⟩
    | none =>
      match beginErr with
      | some e => ⟨none, false, [], some e, false, false, false, 0⟩
      | none =>
        let nRows := entry.valuesX.length
        let queries := [entry.systemVariablesStatement, entry.sqlMode, entry.dbSQL] ++ entry.tbSQL
        match exec fkOffQuery with
        | some e => finishTx commitErr nRows [fkOffQuery] (some e)
        | none =>
          let q := runQueries exec queries
          match q.2 with
          | some e => finishTx commitErr nRows (fkOffQuery :: q.1) (some e)
          | none =>
            let rowsOut := rowLoop exec entry.tableSchema entry.tableName entry.valuesX ""
            finishTx commitErr nRows (fkOffQuery :: q.1 ++ rowsOut.1) rowsOut.2

/-! ## Applier: spec-side row batching (for the refinement statement) -/

/-- Comma-joined list of strings (spec-side rendering helper). -/
def joinComma : List String → String
  | [] => ""
  | [x] => x
  | x :: xs => x ++ "," ++ joinComma xs

/-- The tail of a comma join: a leading comma before every piece. -/
def commaTail : List String → String
  | [] => ""
  | x :: xs => "," ++ x ++ commaTail xs

/-- Spec-side rendering of one cell: the literal token `NULL` for a nil
cell, single-quoted MySQL-escaped text otherwise. -/
def cellSQL : Option String → String
  | none => "NULL"
  | some v => sq ++ escapeValue v ++ sq

/-- Spec-side rendering of one row. -/
def rowFragment (r : List (Option String)) : String :=
  "(" ++ joinComma (r.map cellSQL) ++ ")"

/-- Spec-side statement header. -/
def stmtHeader (schema table : String) : String :=
  "replace into " ++ escapeName schema ++ "." ++ escapeName table ++ " values "

/-- Spec-side rendering of one batch of rows as a single `replace into`
statement. -/
def renderStmt (schema table : String) (g : List (List (Option String))) : String :=
  stmtHeader schema table ++ joinComma (g.map rowFragment)

/-- Spec-side greedy grouping, following the claim wording: rows join the
current statement, which is closed exactly when the rendered statement has
reached 1 MiB or the final row has been emitted. -/
def chunkRows (schema table : String) : List (List (Option String)) → List (List (Option String)) →
    List (List (List (Option String)))
  | [], _ => []
  | r :: rs, acc =>
    let g := acc ++ [r]
    if rs.isEmpty || decide (BufSizeLimit ≤ strByteLen (renderStmt schema table g)) then
      g :: chunkRows schema table rs []
    else chunkRows schema table rs g

/-- Spec-side batching: group greedily, then render each group. -/
def specBatches (schema table : String) (rows : List (List (Option String))) : List String :=
  (chunkRows schema table rows []).map (renderStmt schema table)

/-! ## Applier: incremental NATS subscription handler (oracle lines 322-358) -/

/-- Observable events of one `_incr_hete` subscription callback. -/
inductive IncrEvent
  | handleSegment
  | nmmReset
  | enqueued
  | ackPublished
  | errorRaised
  | stageSet
deriving DecidableEq

/-- Outcome of the `select` between the shutdown channel and the
incremental byte queue: which branch becomes ready first. -/
inductive SelectPick
  | shutdownClosed
  | queueReady
deriving DecidableEq

/-- The `_incr_hete` subscription callback as an event trace.  `handleRes`
is the `NatsMsgMerger.Handle` outcome (`finished` flag or error), `ackErr`
the outcome of publishing the empty reply, `sel` the select outcome for a
final segment. -/
def incrSubscribeHandler (handleRes : Except String Bool) (ackErr : Option String)
    (sel : SelectPick) : List IncrEvent :=
  .handleSegment ::
  (match handleRes with
   | .error _ => [.errorRaised]
   | .ok finished =>
     if !finished then
       match ackErr with
       | some _ => [.errorRaised]
       | none => [.ackPublished]
     else
       match sel with
       | .shutdownClosed => []
       | .queueReady =>
         .enqueued :: .nmmReset ::
         (match ackErr with
          | some _ => [.errorRaised]
          | none => [.ackPublished, .stageSet]))

/-! ## Merge engine: AST heap model

`mergeAlterToTable` mutates the tidb AST in place: `newTable.Cols` starts as
the same slice value as `oldTable.Cols` (same backing array), column and
constraint nodes are shared pointers, and the `append(s[:i], s[i+1:]...)`
idiom shifts elements inside the shared array.  The model therefore keeps
explicit heaps: cells for `*ast.ColumnDef` and `*ast.Constraint`, and
backing arrays for slices, addressed by index.  A Go runtime error
(nil dereference, index out of range, slice bounds) is a `GoTrap`. -/

/-- Go `model.CIStr`: original and lowercased spelling. -/
structure CIStr where
  o : String
  l : String
deriving DecidableEq

/-- Builds a `CIStr` the way the parser does (lower-casing character-wise,
as Go does for ASCII identifiers). -/
def mkCI (s : String) : CIStr := ⟨s, ⟨s.data.map Char.toLower⟩⟩

/-- The `ast.ColumnOptionType` tags the merge inspects. -/
inductive ColOptionTp
  | primaryKey
  | defaultValue
  | otherOption (tag : Nat)
deriving DecidableEq

/-- An `ast.ColumnOption` node: its type tag and an opaque rendering of the
rest (expression text).  Option nodes are never mutated through their
pointers, so they are modelled as values. -/
structure ColumnOption where
  tp : ColOptionTp
  arg : String
deriving DecidableEq

/-- A Go slice header: backing-array id and length.  The capacity of the
array is its stored length; every header in the merge has offset zero. -/
structure GoSlice where
  aid : Nat
  len : Nat
deriving DecidableEq

/-- Heap cell for `*ast.ColumnDef`: the column name (`Name.Name`) and the
`Options` slice (`none` models a nil slice). -/
structure ColumnDefCell where
  name : CIStr
  options : Option GoSlice
deriving DecidableEq

/-- The `ast.ConstraintType` tags the merge inspects. -/
inductive ConstraintTp
  | primaryKey
  | uniq
  | otherConstraint (tag : Nat)
deriving DecidableEq

/-- Heap cell for `*ast.Constraint`: type tag, name, and the constrained
column names (`Keys`, lowercased as `GetPrimaryKey` reads them). -/
structure ConstraintCell where
  tp : ConstraintTp
  name : String
  keys : List CIStr
deriving DecidableEq

/-- An `ast.TableName` value (never mutated through its pointer here). -/
structure TableNameV where
  schema : String
  name : String
deriving DecidableEq

/-- The mutable heap of one merge call: column cells, constraint cells,
backing arrays of cell ids (for `[]*ast.ColumnDef` / `[]*ast.Constraint`),
and backing arrays of option values (for `[]*ast.ColumnOption`). -/
structure MergeState where
  colCells : List ColumnDefCell
  conCells : List ConstraintCell
  refArrs : List (List Nat)
  optArrs : List (List ColumnOption)
deriving DecidableEq

/-- An `ast.CreateTableStmt` value: the fields `mergeAlterToTable` copies.
`options` and `partition` stand for the `Options`/`Partition` fields, which
are carried but never inspected. -/
structure CreateTableV where
  table : Option TableNameV
  cols : GoSlice
  constraints : GoSlice
  options : List String
  partition : Option String
deriving DecidableEq

/-- The `ast.AlterTableType` tags the merge dispatches on. -/
inductive AlterTp
  | renameTable
  | dropColumn
  | changeColumn
  | modifyColumn
  | alterColumn
  | addColumns
  | dropPrimaryKey
  | dropIndex
  | renameIndex
  | addConstraint
  | otherAlter (tag : Nat)
deriving DecidableEq

/-- An `ast.AlterTableSpec` value: `newColumns` and `constraint` hold heap
ids (`[]*ast.ColumnDef`, `*ast.Constraint`); `oldColumnName` is the `Name`
of the possibly-nil `*ast.ColumnName`. -/
structure AlterSpecV where
  tp : AlterTp
  newTable : Option TableNameV
  oldColumnName : Option CIStr
  newColumns : List Nat
  name : String
  fromKey : CIStr
  toKey : CIStr
  constraint : Option Nat
deriving DecidableEq

/-- An `ast.AlterTableStmt` value. -/
structure AlterTableV where
  specs : List AlterSpecV
deriving DecidableEq

/-- A Go runtime error the merge can hit on malformed ASTs. -/
inductive GoTrap
  | nilDeref
  | indexRange
  | sliceBounds
deriving DecidableEq

/-- Non-local exits of `mergeAlterToTable`: a runtime trap, or one of the
`return oldTable, nil` statements (carrying the returned table, the
returned error and the heap at that point). -/
inductive MergeExit
  | trap (p : GoTrap)
  | early (t : CreateTableV) (e : Option String) (st : MergeState)
deriving DecidableEq

/-- `getAlterTableSpecByTp` with a single type argument: keep the specs of
that alter type, in order. -/
def getAlterTableSpecByTp (specs : List AlterSpecV) (tp : AlterTp) : List AlterSpecV :=
  specs.filter fun spec => spec.tp == tp

/-! ### Heap and slice primitives -/

/-- Dereference a `*ast.ColumnDef`. -/
def getColCell (st : MergeState) (id : Nat) : Except MergeExit ColumnDefCell :=
  match st.colCells.get? id with
  | some c => .ok c
  | none => .error (.trap .nilDeref)

/-- Write through a `*ast.ColumnDef`. -/
def setColCell (st : MergeState) (id : Nat) (c : ColumnDefCell) : MergeState :=
  { st with colCells := st.colCells.set id c }

/-- Dereference a `*ast.Constraint`. -/
def getConCell (st : MergeState) (id : Nat) : Except MergeExit ConstraintCell :=
  match st.conCells.get? id with
  | some c => .ok c
  | none => .error (.trap .nilDeref)

/-- Write through a `*ast.Constraint`. -/
def setConCell (st : MergeState) (id : Nat) (c : ConstraintCell) : MergeState :=
  { st with conCells := st.conCells.set id c }

/-- Fetch the backing array of a cell-id slice. -/
def getRefArr (st : MergeState) (aid : Nat) : Except MergeExit (List Nat) :=
  match st.refArrs.get? aid with
  | some a => .ok a
  | none => .error (.trap .nilDeref)

/-- Replace the backing array of a cell-id slice. -/
def setRefArr (st : MergeState) (aid : Nat) (arr : List Nat) : MergeState :=
  { st with refArrs := st.refArrs.set aid arr }

/-- Fetch the backing array of an option slice. -/
def getOptArr (st : MergeState) (aid : Nat) : Except MergeExit (List ColumnOption) :=
  match st.optArrs.get? aid with
  | some a => .ok a
  | none => .error (.trap .nilDeref)

/-- Replace the backing array of an option slice. -/
def setOptArr (st : MergeState) (aid : Nat) (arr : List ColumnOption) : MergeState :=
  { st with optArrs := st.optArrs.set aid arr }

/-- Element read `s[i]` during a range loop over a cell-id slice: the header
was captured at loop start, the array contents are read at the current
state. -/
def readRef (st : MergeState) (s : GoSlice) (i : Nat) : Except MergeExit Nat := do
  let arr ← getRefArr st s.aid
  match arr.get? i with
  | some x => .ok x
  | none => .error (.trap .indexRange)

/-- Element read of an option slice. -/
def readOpt (st : MergeState) (s : GoSlice) (i : Nat) : Except MergeExit ColumnOption := do
  let arr ← getOptArr st s.aid
  match arr.get? i with
  | some x => .ok x
  | none => .error (.trap .indexRange)

/-- Indexed read `s[i]` with the Go bound check `i < len(s)`. -/
def readOptIdx (st : MergeState) (s : GoSlice) (i : Nat) : Except MergeExit ColumnOption :=
  if i < s.len then readOpt st s i else .error (.trap .indexRange)

/-- Index assignment `s[i] = x` on a cell-id slice (Go requires
`i < len(s)`); writes into the shared backing array. -/
def refWrite (st : MergeState) (s : GoSlice) (i : Nat) (x : Nat) : Except MergeExit MergeState :=
  if i < s.len then do
    let arr ← getRefArr st s.aid
    .ok (setRefArr st s.aid (arr.set i x))
  else .error (.trap .indexRange)

/-- Index assignment `s[i] = v` on an option slice. -/
def optWrite (st : MergeState) (s : GoSlice) (i : Nat) (v : ColumnOption) : Except MergeExit MergeState :=
  if i < s.len then do
    let arr ← getOptArr st s.aid
    .ok (setOptArr st s.aid (arr.set i v))
  else .error (.trap .indexRange)

/-- The in-place removal idiom `append(s[:i], s[i+1:]...)` on a cell-id
slice: elements `i+1 … len-1` shift left inside the shared backing array,
the element at `len-1` keeps its old value, the header shrinks by one.
`s[i+1:]` requires `i+1 ≤ len(s)`. -/
def refShrink (st : MergeState) (s : GoSlice) (i : Nat) : Except MergeExit (GoSlice × MergeState) :=
  if i + 1 ≤ s.len then do
    let arr ← getRefArr st s.aid
    let arr2 := arr.take i ++ (arr.drop (i + 1)).take (s.len - i - 1) ++ arr.drop (s.len - 1)
    .ok (⟨s.aid, s.len - 1⟩, setRefArr st s.aid arr2)
  else .error (.trap .sliceBounds)

/-- The in-place removal idiom on an option slice. -/
def optShrink (st : MergeState) (s : GoSlice) (i : Nat) : Except MergeExit (GoSlice × MergeState) :=
  if i + 1 ≤ s.len then do
    let arr ← getOptArr st s.aid
    let arr2 := arr.take i ++ (arr.drop (i + 1)).take (s.len - i - 1) ++ arr.drop (s.len - 1)
    .ok (⟨s.aid, s.len - 1⟩, setOptArr st s.aid arr2)
  else .error (.trap .sliceBounds)

/-- Go `append(s, x)` on a cell-id slice: write in place while capacity
remains, otherwise reallocate (the fresh array is referenced by this header
alone, so an exact-capacity allocation is observationally equivalent). -/
def refAppend1 (st : MergeState) (s : GoSlice) (x : Nat) : Except MergeExit (GoSlice × MergeState) := do
  let arr ← getRefArr st s.aid
  if s.len < arr.length then
    .ok (⟨s.aid, s.len + 1⟩, setRefArr st s.aid (arr.set s.len x))
  else
    .ok (⟨st.refArrs.length, s.len + 1⟩, { st with refArrs := st.refArrs ++ [arr.take s.len ++ [x]] })

/-- The elements of an option slice (`none` models a nil slice). -/
def optElemsE (st : MergeState) (os : Option GoSlice) : Except MergeExit (List ColumnOption) :=
  match os with
  | none => .ok []
  | some s => do
    let arr ← getOptArr st s.aid
    .ok (arr.take s.len)

/-- Go `append(s, elems...)` on an option slice; appending to a nil slice
allocates. -/
def optAppendMany (st : MergeState) (cur : Option GoSlice) (elems : List ColumnOption) :
    Except MergeExit (GoSlice × MergeState) :=
  match cur with
  | none =>
    .ok (⟨st.optArrs.length, elems.length⟩, { st with optArrs := st.optArrs ++ [elems] })
  | some s => do
    let arr ← getOptArr st s.aid
    if s.len + elems.length ≤ arr.length then
      .ok (⟨s.aid, s.len + elems.length⟩,
        setOptArr st s.aid (arr.take s.len ++ elems ++ arr.drop (s.len + elems.length)))
    else
      .ok (⟨st.optArrs.length, s.len + elems.length⟩,
        { st with optArrs := st.optArrs ++ [arr.take s.len ++ elems] })

/-- Dereference of a possibly-nil `*ast.ColumnName`. -/
def derefCI (c : Option CIStr) : Except MergeExit CIStr :=
  match c with
  | some x => .ok x
  | none => .error (.trap .nilDeref)

/-- Go indexing `xs[0]` on `spec.NewColumns`. -/
def listIdx0 (xs : List Nat) : Except MergeExit Nat :=
  match xs with
  | [] => .error (.trap .indexRange)
  | x :: _ => .ok x

/-- `HasOneInOptions(options, tp)`: some option of the slice has the tag. -/
def hasOneInOptions (st : MergeState) (os : Option GoSlice) (tp : ColOptionTp) :
    Except MergeExit Bool := do
  let elems ← optElemsE st os
  .ok (elems.any fun op => op.tp == tp)

/-- Dereference a list of constraint pointers. -/
def getConCells (st : MergeState) : List Nat → Except MergeExit (List ConstraintCell)
  | [] => .ok []
  | id :: rest => do
    let c ← getConCell st id
    let cs ← getConCells st rest
    .ok (c :: cs)

/-- Dereference a list of column pointers. -/
def getColCells (st : MergeState) : List Nat → Except MergeExit (List ColumnDefCell)
  | [] => .ok []
  | id :: rest => do
    let c ← getColCell st id
    let cs ← getColCells st rest
    .ok (c :: cs)

/-- The column loop of `GetPrimaryKey`: does any column carry a
column-level PRIMARY KEY option? -/
def colsAnyPKOpt (st : MergeState) : List ColumnDefCell → Bool → Except MergeExit Bool
  | [], acc => .ok acc
  | c :: rest, acc => do
    let h ← hasOneInOptions st c.options ColOptionTp.primaryKey
    colsAnyPKOpt st rest (acc || h)

/-- The `hasPk` component of `GetPrimaryKey` (the only part `hasPrimaryKey`
and the merge consult): a PRIMARY KEY constraint, or failing that a column
with a column-level PRIMARY KEY option. -/
def hasPrimaryKeyGo (st : MergeState) (t : CreateTableV) : Except MergeExit Bool := do
  let conArr ← getRefArr st t.constraints.aid
  let conCellsList ← getConCells st (conArr.take t.constraints.len)
  let hasPk := conCellsList.any fun c => c.tp == ConstraintTp.primaryKey
  if hasPk then .ok true
  else do
    let colArr ← getRefArr st t.cols.aid
    let colCellsList ← getColCells st (colArr.take t.cols.len)
    colsAnyPKOpt st colCellsList false

/-! ### Merge phases

Each phase mirrors one `for _, spec := range getAlterTableSpecByTp(…)` loop
of `mergeAlterToTable`.  Inner `for i, col := range slice` loops capture the
header (`h0`) once and iterate `List.range h0.len`, reading the shared
backing array at the current state — exactly Go's range semantics. -/

/-- Iterate a phase body over the specs of one alter type, mirroring the Go
loop; a body may exit via `MergeExit`. -/
def foldSpecs (body : AlterSpecV → CreateTableV → MergeState → Except MergeExit (CreateTableV × MergeState)) :
    List AlterSpecV → CreateTableV → MergeState → Except MergeExit (CreateTableV × MergeState)
  | [], t, st => .ok (t, st)
  | spec :: rest, t, st => do
    let r ← body spec t st
    foldSpecs body rest r.1 r.2

/-- DropColumn inner loop: remove every column whose lowercased name matches
`spec.OldColumnName.Name.L`, shifting the shared array in place. -/
def dropColScan (h0 : GoSlice) (oldCol : Option CIStr) :
    List Nat → GoSlice → Bool → MergeState → Except MergeExit (GoSlice × Bool × MergeState)
  | [], cur, found, st => .ok (cur, found, st)
  | i :: rest, cur, found, st => do
    let cid ← readRef st h0 i
    let cell ← getColCell st cid
    let target ← derefCI oldCol
    if cell.name.l == target.l then do
      let s2 ← refShrink st cur i
      dropColScan h0 oldCol rest s2.1 true s2.2
    else dropColScan h0 oldCol rest cur found st

/-- One DropColumn spec: run the scan; a missing column is
`return oldTable, nil`. -/
def dropColumnBody (oldTable : CreateTableV) (spec : AlterSpecV) (t : CreateTableV)
    (st : MergeState) : Except MergeExit (CreateTableV × MergeState) := do
  let r ← dropColScan t.cols spec.oldColumnName (List.range t.cols.len) t.cols false st
  if r.2.1 then .ok ({ t with cols := r.1 }, r.2.2)
  else .error (.early oldTable none r.2.2)

/-- ChangeColumn inner loop: overwrite the matching position with the new
column pointer (`newTable.Cols[i] = spec.NewColumns[0]`), writing through
the shared backing array. -/
def changeColScan (h0 : GoSlice) (spec : AlterSpecV) :
    List Nat → Bool → MergeState → Except MergeExit (Bool × MergeState)
  | [], found, st => .ok (found, st)
  | i :: rest, found, st => do
    let cid ← readRef st h0 i
    let cell ← getColCell st cid
    let target ← derefCI spec.oldColumnName
    if cell.name.l == target.l then do
      let ncId ← listIdx0 spec.newColumns
      let st2 ← refWrite st h0 i ncId
      changeColScan h0 spec rest true st2
    else changeColScan h0 spec rest found st

/-- One ChangeColumn spec. -/
def changeColumnBody (oldTable : CreateTableV) (spec : AlterSpecV) (t : CreateTableV)
    (st : MergeState) : Except MergeExit (CreateTableV × MergeState) := do
  let r ← changeColScan t.cols spec (List.range t.cols.len) false st
  if r.1 then .ok (t, r.2)
  else .error (.early oldTable none r.2)

/-- ModifyColumn inner loop: like ChangeColumn, but matching on the new
column's own name (`spec.NewColumns[0].Name.Name.L`). -/
def modifyColScan (h0 : GoSlice) (spec : AlterSpecV) :
    List Nat → Bool → MergeState → Except MergeExit (Bool × MergeState)
  | [], found, st => .ok (found, st)
  | i :: rest, found, st => do
    let cid ← readRef st h0 i
    let cell ← getColCell st cid
    let ncId ← listIdx0 spec.newColumns
    let ncCell ← getColCell st ncId
    if cell.name.l == ncCell.name.l then do
      let st2 ← refWrite st h0 i ncId
      modifyColScan h0 spec rest true st2
    else modifyColScan h0 spec rest found st

/-- One ModifyColumn spec. -/
def modifyColumnBody (oldTable : CreateTableV) (spec : AlterSpecV) (t : CreateTableV)
    (st : MergeState) : Except MergeExit (CreateTableV × MergeState) := do
  let r ← modifyColScan t.cols spec (List.range t.cols.len) false st
  if r.1 then .ok (t, r.2)
  else .error (.early oldTable none r.2)

/-- The `alter column drop default` loop:
`for i, op := range col.Options { if op.Tp == tp { col.Options = append(col.Options[:i], col.Options[i+1:]...) } }`.
The range header `h0` is captured once; the shrink acts on the cell's
current header. -/
def optShrinkLoop (cellId : Nat) (h0 : GoSlice) (tp : ColOptionTp) :
    List Nat → MergeState → Except MergeExit MergeState
  | [], st => .ok st
  | i :: rest, st => do
    let op ← readOpt st h0 i
    if op.tp == tp then do
      let cell ← getColCell st cellId
      match cell.options with
      | none => .error (.trap .sliceBounds)
      | some cur => do
        let s2 ← optShrink st cur i
        optShrinkLoop cellId h0 tp rest (setColCell s2.2 cellId { cell with options := some s2.1 })
    else optShrinkLoop cellId h0 tp rest st

/-- The `alter column set default` replacement loop:
`for i, op := range col.Options { if op.Tp == tp { col.Options[i] = newCol.Options[0] } }`. -/
def optReplaceLoop (colId ncId : Nat) (h0 : GoSlice) (tp : ColOptionTp) :
    List Nat → MergeState → Except MergeExit MergeState
  | [], st => .ok st
  | i :: rest, st => do
    let op ← readOpt st h0 i
    if op.tp == tp then do
      let ncCell ← getColCell st ncId
      match ncCell.options with
      | none => .error (.trap .indexRange)
      | some ncs => do
        let v ← readOptIdx st ncs 0
        let cell ← getColCell st colId
        match cell.options with
        | none => .error (.trap .indexRange)
        | some cur => do
          let st2 ← optWrite st cur i v
          optReplaceLoop colId ncId h0 tp rest st2
    else optReplaceLoop colId ncId h0 tp rest st

/-- AlterColumn outer loop over the table columns: on a name match apply the
default-value operation dictated by `newCol.Options`. -/
def alterColScan (h0 : GoSlice) (ncId : Nat) :
    List Nat → Bool → MergeState → Except MergeExit (Bool × MergeState)
  | [], found, st => .ok (found, st)
  | i :: rest, found, st => do
    let cid ← readRef st h0 i
    let cell ← getColCell st cid
    let ncCell ← getColCell st ncId
    if cell.name.l == ncCell.name.l then
      match ncCell.options with
      | none =>
        match cell.options with
        | none => alterColScan h0 ncId rest true st
        | some oh => do
          let st2 ← optShrinkLoop cid oh ColOptionTp.defaultValue (List.range oh.len) st
          alterColScan h0 ncId rest true st2
      | some ncs => do
        let hasDef ← hasOneInOptions st cell.options ColOptionTp.defaultValue
        if hasDef then
          match cell.options with
          | none => alterColScan h0 ncId rest true st
          | some oh => do
            let st2 ← optReplaceLoop cid ncId oh ColOptionTp.defaultValue (List.range oh.len) st
            alterColScan h0 ncId rest true st2
        else do
          let elems ← optElemsE st (some ncs)
          let r ← optAppendMany st cell.options elems
          let cell2 ← getColCell st cid
          alterColScan h0 ncId rest true (setColCell r.2 cid { cell2 with options := some r.1 })
    else alterColScan h0 ncId rest found st

/-- One AlterColumn spec: `newCol := spec.NewColumns[0]` is indexed before
the loop. -/
def alterColumnBody (oldTable : CreateTableV) (spec : AlterSpecV) (t : CreateTableV)
    (st : MergeState) : Except MergeExit (CreateTableV × MergeState) := do
  let ncId ← listIdx0 spec.newColumns
  let r ← alterColScan t.cols ncId (List.range t.cols.len) false st
  if r.1 then .ok (t, r.2)
  else .error (.early oldTable none r.2)

/-- AddColumns duplicate check: does any current column share the new
column's lowercased name? -/
def colNameExists (h0 : GoSlice) (ncId : Nat) :
    List Nat → Bool → MergeState → Except MergeExit Bool
  | [], acc, _ => .ok acc
  | i :: rest, acc, st => do
    let cid ← readRef st h0 i
    let cell ← getColCell st cid
    let ncCell ← getColCell st ncId
    colNameExists h0 ncId rest (acc || (cell.name.l == ncCell.name.l)) st

/-- AddColumns inner loop over `spec.NewColumns`: a duplicate is
`return oldTable, nil`, otherwise the pointer is appended. -/
def addColumnsLoop (oldTable : CreateTableV) :
    List Nat → CreateTableV → MergeState → Except MergeExit (CreateTableV × MergeState)
  | [], t, st => .ok (t, st)
  | ncId :: rest, t, st => do
    let ex ← colNameExists t.cols ncId (List.range t.cols.len) false st
    if ex then .error (.early oldTable none st)
    else do
      let r ← refAppend1 st t.cols ncId
      addColumnsLoop oldTable rest { t with cols := r.1 } r.2

/-- One AddColumns spec. -/
def addColumnsBody (oldTable : CreateTableV) (spec : AlterSpecV) (t : CreateTableV)
    (st : MergeState) : Except MergeExit (CreateTableV × MergeState) :=
  addColumnsLoop oldTable spec.newColumns t st

/-- DropPrimaryKey constraint loop: in-place removal of every PRIMARY KEY
constraint (the same defective range-while-shrinking idiom). -/
def conShrinkTpLoop (h0 : GoSlice) (tp : ConstraintTp) :
    List Nat → GoSlice → MergeState → Except MergeExit (GoSlice × MergeState)
  | [], cur, st => .ok (cur, st)
  | i :: rest, cur, st => do
    let cid ← readRef st h0 i
    let cell ← getConCell st cid
    if cell.tp == tp then do
      let s2 ← refShrink st cur i
      conShrinkTpLoop h0 tp rest s2.1 s2.2
    else conShrinkTpLoop h0 tp rest cur st

/-- DropPrimaryKey column loop: strip the column-level PRIMARY KEY option of
every column. -/
def dropPKColsLoop (h0 : GoSlice) :
    List Nat → MergeState → Except MergeExit MergeState
  | [], st => .ok st
  | i :: rest, st => do
    let cid ← readRef st h0 i
    let cell ← getColCell st cid
    match cell.options with
    | none => dropPKColsLoop h0 rest st
    | some oh => do
      let st2 ← optShrinkLoop cid oh ColOptionTp.primaryKey (List.range oh.len) st
      dropPKColsLoop h0 rest st2

/-- One DropPrimaryKey spec: no PK at all is `return oldTable, nil`. -/
def dropPrimaryKeyBody (oldTable : CreateTableV) (spec : AlterSpecV) (t : CreateTableV)
    (st : MergeState) : Except MergeExit (CreateTableV × MergeState) := do
  let _ := spec
  let hasPk ← hasPrimaryKeyGo st t
  if !hasPk then .error (.early oldTable none st)
  else do
    let r ← conShrinkTpLoop t.constraints ConstraintTp.primaryKey
      (List.range t.constraints.len) t.constraints st
    let t2 := { t with constraints := r.1 }
    let st2 ← dropPKColsLoop t2.cols (List.range t2.cols.len) r.2
    .ok (t2, st2)

/-- DropIndex inner loop: in-place removal of the constraints matching the
index name, tracking whether any matched. -/
def conShrinkNameLoop (h0 : GoSlice) (indexName : String) :
    List Nat → GoSlice → Bool → MergeState → Except MergeExit (GoSlice × Bool × MergeState)
  | [], cur, found, st => .ok (cur, found, st)
  | i :: rest, cur, found, st => do
    let cid ← readRef st h0 i
    let cell ← getConCell st cid
    if cell.name == indexName then do
      let s2 ← refShrink st cur i
      conShrinkNameLoop h0 indexName rest s2.1 true s2.2
    else conShrinkNameLoop h0 indexName rest cur found st

/-- One DropIndex spec. -/
def dropIndexBody (oldTable : CreateTableV) (spec : AlterSpecV) (t : CreateTableV)
    (st : MergeState) : Except MergeExit (CreateTableV × MergeState) := do
  let r ← conShrinkNameLoop t.constraints spec.name (List.range t.constraints.len)
    t.constraints false st
  if r.2.1 then .ok ({ t with constraints := r.1 }, r.2.2)
  else .error (.early oldTable none r.2.2)

/-- RenameIndex inner loop: rename the matching constraints through their
shared cells. -/
def conRenameLoop (h0 : GoSlice) (oldName newName : String) :
    List Nat → Bool → MergeState → Except MergeExit (Bool × MergeState)
  | [], found, st => .ok (found, st)
  | i :: rest, found, st => do
    let cid ← readRef st h0 i
    let cell ← getConCell st cid
    if cell.name == oldName then
      conRenameLoop h0 oldName newName rest true (setConCell st cid { cell with name := newName })
    else conRenameLoop h0 oldName newName rest found st

/-- One RenameIndex spec: comparisons use `CIStr.String()`, i.e. the
original spelling. -/
def renameIndexBody (oldTable : CreateTableV) (spec : AlterSpecV) (t : CreateTableV)
    (st : MergeState) : Except MergeExit (CreateTableV × MergeState) := do
  let r ← conRenameLoop t.constraints spec.fromKey.o spec.toKey.o
    (List.range t.constraints.len) false st
  if r.1 then .ok (t, r.2)
  else .error (.early oldTable none r.2)

/-- AddConstraint duplicate-name check. -/
def conNameExists (h0 : GoSlice) (target : String) :
    List Nat → Bool → MergeState → Except MergeExit Bool
  | [], acc, _ => .ok acc
  | i :: rest, acc, st => do
    let cid ← readRef st h0 i
    let cell ← getConCell st cid
    conNameExists h0 target rest (acc || (cell.name == target)) st

/-- One AddConstraint spec: a second PRIMARY KEY, or a duplicate constraint
name, is `return oldTable, nil`; otherwise the pointer is appended. -/
def addConstraintBody (oldTable : CreateTableV) (spec : AlterSpecV) (t : CreateTableV)
    (st : MergeState) : Except MergeExit (CreateTableV × MergeState) := do
  match spec.constraint with
  | none => .error (.trap .nilDeref)
  | some conId => do
    let conCell ← getConCell st conId
    match conCell.tp with
    | .primaryKey => do
      let hasPk ← hasPrimaryKeyGo st t
      if hasPk then .error (.early oldTable none st)
      else do
        let r ← refAppend1 st t.constraints conId
        .ok ({ t with constraints := r.1 }, r.2)
    | _ => do
      let ex ← conNameExists t.constraints conCell.name (List.range t.constraints.len) false st
      if ex then .error (.early oldTable none st)
      else do
        let r ← refAppend1 st t.constraints conId
        .ok ({ t with constraints := r.1 }, r.2)

/-- The body of `mergeAlterToTable`: build `newTable` sharing the old
table's slices, then run the phases in source order. -/
def mergeBody (st0 : MergeState) (oldTable : CreateTableV) (alter : AlterTableV) :
    Except MergeExit (CreateTableV × MergeState) := do
  let newTable : CreateTableV :=
    { table := oldTable.table, cols := oldTable.cols, constraints := oldTable.constraints,
      options := oldTable.options, partition := oldTable.partition }
  let t1 := (getAlterTableSpecByTp alter.specs .renameTable).foldl
    (fun t spec => { t with table := spec.newTable }) newTable
  let r2 ← foldSpecs (dropColumnBody oldTable) (getAlterTableSpecByTp alter.specs .dropColumn) t1 st0
  let r3 ← foldSpecs (changeColumnBody oldTable) (getAlterTableSpecByTp alter.specs .changeColumn) r2.1 r2.2
  let r4 ← foldSpecs (modifyColumnBody oldTable) (getAlterTableSpecByTp alter.specs .modifyColumn) r3.1 r3.2
  let r5 ← foldSpecs (alterColumnBody oldTable) (getAlterTableSpecByTp alter.specs .alterColumn) r4.1 r4.2
  let r6 ← foldSpecs (addColumnsBody oldTable) (getAlterTableSpecByTp alter.specs .addColumns) r5.1 r5.2
  let r7 ← foldSpecs (dropPrimaryKeyBody oldTable) (getAlterTableSpecByTp alter.specs .dropPrimaryKey) r6.1 r6.2
  let r8 ← foldSpecs (dropIndexBody oldTable) (getAlterTableSpecByTp alter.specs .dropIndex) r7.1 r7.2
  let r9 ← foldSpecs (renameIndexBody oldTable) (getAlterTableSpecByTp alter.specs .renameIndex) r8.1 r8.2
  let r10 ← foldSpecs (addConstraintBody oldTable) (getAlterTableSpecByTp alter.specs .addConstraint) r9.1 r9.2
  .ok r10

/-- `mergeAlterToTable`: a runtime trap stays a trap; every `return` of the
Go function pairs the table with a nil error. -/
def mergeAlterToTable (st0 : MergeState) (oldTable : CreateTableV) (alter : AlterTableV) :
    Except GoTrap ((CreateTableV × Option String) × MergeState) :=
  match mergeBody st0 oldTable alter with
  | .ok (t, st) => .ok ((t, none), st)
  | .error (.early t e st) => .ok ((t, e), st)
  | .error (.trap p) => .error p

/-! ### Rendered view of a table (for equality statements)

Go value equality of the returned `*ast.CreateTableStmt` tree is expressed
by dereferencing everything reachable from the table value in a given
heap. -/

/-- The dereferenced content of a table: name, columns with their options,
constraints. -/
structure TableView where
  table : Option TableNameV
  cols : List (CIStr × List ColumnOption)
  constraints : List (ConstraintTp × String × List CIStr)
deriving DecidableEq

/-- Dereference a table value in a heap; `none` on a dangling reference. -/
def viewTable (st : MergeState) (t : CreateTableV) : Option TableView := do
  let colArr ← st.refArrs.get? t.cols.aid
  let conArr ← st.refArrs.get? t.constraints.aid
  let cols ← (colArr.take t.cols.len).mapM fun id => do
    let c ← st.colCells.get? id
    let opts ← match c.options with
      | none => some []
      | some s => do
        let arr ← st.optArrs.get? s.aid
        some (arr.take s.len)
    some (c.name, opts)
  let cons ← (conArr.take t.constraints.len).mapM fun id => do
    let c ← st.conCells.get? id
    some (c.tp, c.name, c.keys)
  some ⟨t.table, cols, cons⟩

/-! ## TableChecker: checkColumnByName (inspector, lines 1396-1447)

The checker's `schemaTables` map is modelled as an association list
`schema → (table → column names)`; the stored `*ast.CreateTableStmt` is
consulted only through `tableExistCol`, which compares each column's
`Name.Name.String()` with the reference, so a stored table is its list of
original-spelling column names.  Go map iteration order is arbitrary; the
existence/ambiguity outcome is independent of it, and the model iterates in
list order. -/

/-- A catalog: schema name to table name to column names. -/
abbrev Catalog := List (String × List (String × List String))

/-- `tableExistCol`: some column of the stored table has exactly this
name. -/
def tableExistCol (cols : List String) (colName : String) : Bool :=
  cols.any fun c => c == colName

/-- An `ast.ColumnName` reference: schema, table and column, each possibly
empty. -/
structure ColumnNameRef where
  schema : String
  table : String
  name : String
deriving DecidableEq

/-- One schema step of the qualifier-less scan: the `tables[tableName]`
lookup, then (for a bare column only) the scan of every table of the
schema.  The pair is `(colExists, colIsAmbiguous)`; a match reached while
`colExists` already holds switches `colIsAmbiguous` on. -/
def scanSchemaStep (tableName colName : String) (acc : Bool × Bool)
    (tables : List (String × List String)) : Bool × Bool :=
  let acc1 :=
    match tables.lookup tableName with
    | some tb => if tableExistCol tb colName then (true, acc.2 || acc.1) else acc
    | none => acc
  if tableName ≠ "" then acc1
  else
    tables.foldl
      (fun a p => if tableExistCol p.2 colName then (true, a.2 || a.1) else a)
      acc1

/-- `TableChecker.checkColumnByName`: returns `(colExists, colIsAmbiguous)`.
A schema-qualified hit answers immediately with `false` ambiguity; a
reference that still carries a schema qualifier after a miss resolves to
`(false, false)`; otherwise every schema is scanned. -/
def checkColumnByName (cat : Catalog) (c : ColumnNameRef) : Bool × Bool :=
  let hit :=
    match cat.lookup c.schema with
    | some tables =>
      match tables.lookup c.table with
      | some tb => some (tableExistCol tb c.name, false)
      | none => none
    | none => none
  match hit with
  | some r => r
  | none =>
    if c.schema ≠ "" then (false, false)
    else cat.foldl (fun acc p => scanSchemaStep c.table c.name acc p.2) (false, false)

/-- The number of catalog tables that resolve a qualifier-less reference:
for a table-qualified reference the tables of that name (one lookup per
schema), for a bare column every table containing the column. -/
def resolutionCount (cat : Catalog) (c : ColumnNameRef) : Nat :=
  if c.table ≠ "" then
    (cat.filter fun p =>
      match p.2.lookup c.table with
      | some tb => tableExistCol tb c.name
      | none => false).length
  else
    (cat.map fun p => (p.2.filter fun q => tableExistCol q.2 c.name).length).sum

/-- The number of resolutions one schema contributes to a qualifier-less
reference: one possible lookup hit for a table-qualified reference, every
matching table for a bare column. -/
def schemaHits (tableName colName : String) (tables : List (String × List String)) : Nat :=
  if tableName ≠ "" then
    match tables.lookup tableName with
    | some tb => if tableExistCol tb colName then 1 else 0
    | none => 0
  else (tables.filter fun q => tableExistCol q.2 colName).length

/-- Catalog for the C6 counterexample: two schemas, each with a table `t`
holding a column `c`. -/
def exC6Cat : Catalog := [("s1", [("t", ["c"])]), ("s2", [("t", ["c"])])]

/-- Reference for the C6 counterexample: `t.c` — table-qualified, without a
schema qualifier. -/
def exC6Ref : ColumnNameRef := ⟨"", "t", "c"⟩

/-- The exit discipline of the merge: a runtime trap, or an early return
whose error component is nil. -/
def ExitNice : MergeExit → Prop
  | .trap _ => True
  | .early _ e _ => e = none

/-- A merge computation all of whose non-ok results satisfy `ExitNice`. -/
def ResNice {α : Type} : Except MergeExit α → Prop
  | .ok _ => True
  | .error ex => ExitNice ex

/-- Heap for the C1 counterexample: the two table columns `a`, `b`, the
ChangeColumn replacement column `a2`, the ModifyColumn column `zzz`; one
backing array for the table's column pointers and one (empty) for its
constraints. -/
def exC1State : MergeState :=
  ⟨[⟨mkCI "a", none⟩, ⟨mkCI "b", none⟩, ⟨mkCI "a2", none⟩, ⟨mkCI "zzz", none⟩],
   [], [[0, 1], []], []⟩

/-- The C1 CREATE TABLE `t(a, b)`. -/
def exC1Old : CreateTableV := ⟨some ⟨"", "t"⟩, ⟨0, 2⟩, ⟨1, 0⟩, [], none⟩

/-- The C1 ALTER TABLE: `CHANGE COLUMN a a2 …, MODIFY COLUMN zzz …` — the
change is applicable, the modify is not (`zzz` does not exist). -/
def exC1Alter : AlterTableV :=
  ⟨[⟨AlterTp.changeColumn, none, some (mkCI "a"), [2], "", mkCI "", mkCI "", none⟩,
    ⟨AlterTp.modifyColumn, none, none, [3], "", mkCI "", mkCI "", none⟩]⟩

/-- The heap after the C1 merge: the shared backing array now carries the
replacement column in place of `a`. -/
def exC1StateAfter : MergeState :=
  ⟨[⟨mkCI "a", none⟩, ⟨mkCI "b", none⟩, ⟨mkCI "a2", none⟩, ⟨mkCI "zzz", none⟩],
   [], [[2, 1], []], []⟩

/-- A minimal heap for the C10 witness. -/
def exC10St : MergeState := ⟨[], [], [[]], []⟩

/-- A columnless CREATE TABLE for the C10 witness. -/
def exC10Old : CreateTableV := ⟨none, ⟨0, 0⟩, ⟨0, 0⟩, [], none⟩

/-- An ALTER TABLE with no specifications for the C10 witness. -/
def exC10Alter : AlterTableV := ⟨[]⟩

/-- A non-ignorable error for the C3 counterexample. -/
def c3err : DBErr := ⟨"Duplicate entry", false, false⟩

/-- Destination behaviour for the C3 counterexample: exactly one statement
fails, with a non-ignorable error. -/
def c3exec : String → Option DBErr := fun q => if q = "insert bad" then some c3err else none

/-- Dump entry for the C3 counterexample: two table statements succeed
before one fails. -/
def c3entry : DumpEntry :=
  ⟨"s", "t", "", "", "create database s", ["create table ok", "insert bad", "insert after"], []⟩

/-! ## Theorems -/

/-- The grant scan folds to a disjunction per flag. -/
theorem scanGrant_foldl (grants : List String) (f : GrantFlags) :
    grants.foldl scanGrant f =
      ⟨f.foundAll || grants.any (fun g => strContains g "GRANT ALL PRIVILEGES ON"),
       f.foundSuper || grants.any (fun g => strContains g "SUPER"),
       f.foundReplicationClient || grants.any (fun g => strContains g "REPLICATION CLIENT"),
       f.foundReplicationSlave || grants.any (fun g => strContains g "REPLICATION SLAVE"),
       f.foundDBAll || grants.any (fun g => stringContainsAll g ["SELECT"])⟩ := by
  induction grants generalizing f with
  | nil => simp
  | cons g gs ih =>
    simp only [List.foldl_cons, List.any_cons, ih, scanGrant, Bool.or_assoc]

/-- Containing every element of `[x]` is containing `x`. -/
theorem stringContainsAll_single (g x : String) :
    stringContainsAll g [x] = strContains g x := by
  simp [stringContainsAll]

/-- C7.  Inspector privilege validation: `validateGrants` succeeds exactly
when the privilege check is skipped, or the shown grants contain
`ALL PRIVILEGES`, or `SUPER` together with `REPLICATION SLAVE` and `SELECT`,
or `REPLICATION CLIENT` together with `REPLICATION SLAVE` and `SELECT`;
otherwise it returns the insufficient-privileges error.  With
`SkipPrivilegeCheck` set it succeeds for every grant list, i.e. without
consulting the query result. -/
theorem claimC7 (skip : Bool) (grants : List String) :
    (validateGrants skip grants = none ↔
      (skip = true ∨
        (∃ g ∈ grants, strContains g "GRANT ALL PRIVILEGES ON" = true) ∨
        ((∃ g ∈ grants, strContains g "SUPER" = true) ∧
          (∃ g ∈ grants, strContains g "REPLICATION SLAVE" = true) ∧
          (∃ g ∈ grants, strContains g "SELECT" = true)) ∨
        ((∃ g ∈ grants, strContains g "REPLICATION CLIENT" = true) ∧
          (∃ g ∈ grants, strContains g "REPLICATION SLAVE" = true) ∧
          (∃ g ∈ grants, strContains g "SELECT" = true)))) ∧
    (validateGrants skip grants = none ∨
      validateGrants skip grants = some insufficientPrivilegesMsg) := by
  constructor
  · unfold validateGrants
    cases skip with
    | true => simp
    | false =>
      rw [scanGrant_foldl]
      simp only [Bool.false_or, Bool.false_eq_true, false_or]
      rcases hA : grants.any (fun g => strContains g "GRANT ALL PRIVILEGES ON") with _ | _ <;>
      rcases hS : grants.any (fun g => strContains g "SUPER") with _ | _ <;>
      rcases hC : grants.any (fun g => strContains g "REPLICATION CLIENT") with _ | _ <;>
      rcases hR : grants.any (fun g => strContains g "REPLICATION SLAVE") with _ | _ <;>
      rcases hD : grants.any (fun g => stringContainsAll g ["SELECT"]) with _ | _ <;>
      simp_all [List.any_eq_true, stringContainsAll_single]
  · unfold validateGrants
    cases skip with
    | true => simp
    | false =>
      simp only [Bool.false_eq_true, if_false]
      split
      · exact Or.inl rfl
      · split
        · exact Or.inl rfl
        · split
          · exact Or.inl rfl
          · exact Or.inr rfl

/-- C8.  Binlog validation: an error is returned exactly when binary
logging is off or the binlog format is not ROW; when both checks pass and
the row-image query is unavailable the descriptor gets FULL; every success
publishes the upper-cased row image. -/
theorem claimC8 (logBin : Bool) (binlogFormat : String) (rowImageScan : Option String)
    (prior : String) :
    ((validateBinlogs logBin binlogFormat rowImageScan prior).err = none ↔
      (logBin = true ∧ binlogFormat = "ROW")) ∧
    (logBin = true → binlogFormat = "ROW" → rowImageScan = none →
      (validateBinlogs logBin binlogFormat rowImageScan prior).binlogRowImage = "FULL") ∧
    ((validateBinlogs logBin binlogFormat rowImageScan prior).err = none →
      (validateBinlogs logBin binlogFormat rowImageScan prior).binlogRowImage =
        goToUpper (rowImageScan.getD "FULL")) := by
  refine ⟨?_, ?_, ?_⟩
  · unfold validateBinlogs
    cases logBin with
    | false => simp
    | true =>
      by_cases hf : binlogFormat = "ROW" <;> simp [hf]
  · intro h1 h2 h3
    subst h1; subst h2; subst h3
    simp [validateBinlogs]
    decide
  · unfold validateBinlogs
    cases logBin with
    | false => simp
    | true =>
      by_cases hf : binlogFormat = "ROW" <;> simp [hf]
      cases rowImageScan <;> simp

/-- Witness for C8 at a concrete input: row image unavailable defaults to
FULL and validation succeeds. -/
theorem claimC8_witness :
    (validateBinlogs true "ROW" none "").err = none ∧
    (validateBinlogs true "ROW" none "").binlogRowImage = "FULL" :=
  ⟨((claimC8 true "ROW" none "").1).mpr ⟨rfl, rfl⟩,
   (claimC8 true "ROW" none "").2.1 rfl rfl rfl⟩

/-- The column-type loop of the validity check is the `all` of the
per-column test. -/
theorem uniqueKeyIsValid_types (cols : List UKColumn) (init : Bool) :
    cols.foldl
      (fun valid column =>
        match column.tp with
        | .floatColumn => false
        | .jsonColumn => false
        | .otherColumn _ => valid)
      init =
    (init && cols.all fun c =>
      match c.tp with
      | .floatColumn => false
      | .jsonColumn => false
      | .otherColumn _ => true) := by
  induction cols generalizing init with
  | nil => simp
  | cons c cs ih =>
    cases h : c.tp <;> simp [List.foldl_cons, List.all_cons, h, ih, Bool.and_assoc]

/-- The source validity computation agrees with the spec-side predicate. -/
theorem uniqueKeyIsValid_eq_validCandidate (bi : String) (uk : UniqueKey) :
    uniqueKeyIsValid bi uk = validCandidate bi uk := by
  unfold uniqueKeyIsValid validCandidate
  rw [uniqueKeyIsValid_types]
  cases hn : uk.hasNullable <;> cases hp : uk.isPrimary <;>
    by_cases hf : bi = "FULL" <;>
    simp [hn, hp, hf, Bool.and_comm, Bool.and_assoc, Bool.and_left_comm]

/-- The selection loop, generalized over the accumulator: a valid PRIMARY
wins, otherwise the accumulator, otherwise the first valid candidate. -/
theorem selectUniqueKey_go (bi : String) (uks : List UniqueKey) :
    ∀ acc, selectUniqueKey bi uks acc =
      match (uks.filter (validCandidate bi)).find? (fun uk => uk.isPrimary) with
      | some p => some p
      | none =>
        match acc with
        | some a => some a
        | none => (uks.filter (validCandidate bi)).head? := by
  induction uks with
  | nil => intro acc; cases acc <;> simp [selectUniqueKey]
  | cons uk rest ih =>
    intro acc
    by_cases hv : validCandidate bi uk
    · by_cases hp : uk.isPrimary = true
      · simp [selectUniqueKey, uniqueKeyIsValid_eq_validCandidate, hv, hp, List.filter_cons,
          List.find?]
      · replace hp : uk.isPrimary = false := by
          cases h : uk.isPrimary
          · rfl
          · exact absurd h hp
        cases acc with
        | none =>
          simp only [selectUniqueKey, uniqueKeyIsValid_eq_validCandidate, hv, hp, if_true,
            Bool.false_eq_true, if_false, ih, List.filter_cons, List.find?, List.head?]
        | some a =>
          simp only [selectUniqueKey, uniqueKeyIsValid_eq_validCandidate, hv, hp, if_true,
            Bool.false_eq_true, if_false, ih, List.filter_cons, List.find?, List.head?]
    · replace hv : validCandidate bi uk = false := by
        cases h : validCandidate bi uk
        · rfl
        · exact absurd h hv
      simp [selectUniqueKey, uniqueKeyIsValid_eq_validCandidate, hv, ih, List.filter_cons]

/-- C2.  Replication-key selection: under a clean table check, a clean
column/key inspection and a parsable (or absent) row filter,
`ValidateOriginalTable` succeeds, and the chosen key is the spec rule —
a candidate is accepted only if it has no FLOAT/JSON column, no nullable
column, and is PRIMARY or the row image is FULL; PRIMARY wins among the
accepted, otherwise the first accepted in discovery order; with no accepted
candidate `UseUniqueKey` stays `none` and validation still succeeds. -/
theorem claimC2 (inp : TableValidationIn) (cols : List UKColumn) (uks : List UniqueKey)
    (h1 : inp.validateTableErr = none)
    (h2 : inp.inspectRes = Except.ok (cols, uks))
    (h3 : inp.whereParseErr = none) :
    (validateOriginalTable inp).err = none ∧
    (validateOriginalTable inp).useUniqueKey = specChosenKey inp.binlogRowImage uks ∧
    ((∀ uk ∈ uks, validCandidate inp.binlogRowImage uk = false) →
      (validateOriginalTable inp).useUniqueKey = none) := by
  have hres : validateOriginalTable inp =
      ⟨none, selectUniqueKey inp.binlogRowImage uks none⟩ := by
    unfold validateOriginalTable
    rw [h1, h2, h3]
  have hkey : selectUniqueKey inp.binlogRowImage uks none =
      specChosenKey inp.binlogRowImage uks := by
    rw [selectUniqueKey_go]
    unfold specChosenKey
    cases hf : (uks.filter (validCandidate inp.binlogRowImage)).find? (fun uk => uk.isPrimary) <;>
      simp [hf]
  refine ⟨by rw [hres], by rw [hres]; exact hkey, ?_⟩
  intro hall
  rw [hres]
  simp only
  rw [hkey]
  unfold specChosenKey
  have hfil : uks.filter (validCandidate inp.binlogRowImage) = [] :=
    List.filter_eq_nil_iff.mpr (by intro uk hm; simp [hall uk hm])
  rw [hfil]
  rfl

/-- Witness for C2: a FLOAT-keyed candidate is rejected, the INT-keyed
candidate is chosen; table `t(a FLOAT UNIQUE, b INT UNIQUE)` of spec
scenario 2. -/
theorem claimC2_witness :
    (validateOriginalTable
      ⟨none, Except.ok ([⟨"a", .floatColumn⟩, ⟨"b", .otherColumn 0⟩],
        [⟨"uk_a", [⟨"a", .floatColumn⟩], false, false, [""]⟩,
         ⟨"uk_b", [⟨"b", .otherColumn 0⟩], false, false, [""]⟩]), "FULL", none⟩).err = none ∧
    (validateOriginalTable
      ⟨none, Except.ok ([⟨"a", .floatColumn⟩, ⟨"b", .otherColumn 0⟩],
        [⟨"uk_a", [⟨"a", .floatColumn⟩], false, false, [""]⟩,
         ⟨"uk_b", [⟨"b", .otherColumn 0⟩], false, false, [""]⟩]), "FULL", none⟩).useUniqueKey =
      some ⟨"uk_b", [⟨"b", .otherColumn 0⟩], false, false, [""]⟩ := by
  have h := claimC2
    ⟨none, Except.ok ([⟨"a", .floatColumn⟩, ⟨"b", .otherColumn 0⟩],
      [⟨"uk_a", [⟨"a", .floatColumn⟩], false, false, [""]⟩,
       ⟨"uk_b", [⟨"b", .otherColumn 0⟩], false, false, [""]⟩]), "FULL", none⟩
    [⟨"a", .floatColumn⟩, ⟨"b", .otherColumn 0⟩]
    [⟨"uk_a", [⟨"a", .floatColumn⟩], false, false, [""]⟩,
     ⟨"uk_b", [⟨"b", .otherColumn 0⟩], false, false, [""]⟩]
    rfl rfl rfl
  refine ⟨h.1, ?_⟩
  rw [h.2.1]
  decide

/-- C5.  Where-clause handling in the code: a row-filter parse failure is
returned from `ValidateOriginalTable` (fatal), not merely warned about —
contrary to the spec. -/
theorem claimC5_whereFatal :
    validateOriginalTable ⟨none, Except.ok ([], []), "FULL", some "where parse failed"⟩ =
      ⟨some "where parse failed", none⟩ := rfl

/-! ### C3: apply-error discipline -/

/-- A fatal `execQuery` outcome can only carry a non-ignorable error. -/
theorem execQueryStep_fatal (exec : String → Option DBErr) (q : String) (e : DBErr)
    (h : execQueryStep exec q = ExecOutcome.fatal e) : IgnoreError e = false := by
  unfold execQueryStep at h
  cases hq : exec q with
  | none => rw [hq] at h; exact absurd h (by simp)
  | some e2 =>
    rw [hq] at h
    cases hi : IgnoreError e2 with
    | false => simp [hi] at h; rw [← h]; exact hi
    | true => simp [hi] at h

/-- The statement loop only reports non-ignorable errors. -/
theorem runQueries_fatal (exec : String → Option DBErr) :
    ∀ qs l e, runQueries exec qs = (l, some e) → IgnoreError e = false := by
  intro qs
  induction qs with
  | nil => intro l e h; simp [runQueries] at h
  | cons q rest ih =>
    intro l e h
    simp only [runQueries] at h
    repeat' split at h
    all_goals first
      | exact ih _ _ h
      | (rename_i e2 hs
         have h2 : e2 = e := by
           have h3 := congrArg Prod.snd h
           simpa using h3
         subst h2
         exact execQueryStep_fatal _ _ _ hs)
      | (rcases hr : runQueries exec rest with ⟨l2, r2⟩
         rw [hr] at h
         have h2 : r2 = some e := congrArg Prod.snd h
         subst h2
         exact ih _ _ hr)

/-- The row loop only reports non-ignorable errors. -/
theorem rowLoop_fatal (exec : String → Option DBErr) (s t : String) :
    ∀ rows buf l e, rowLoop exec s t rows buf = (l, some e) → IgnoreError e = false := by
  intro rows
  induction rows with
  | nil => intro buf l e h; simp [rowLoop] at h
  | cons r rs ih =>
    intro buf l e h
    simp only [rowLoop] at h
    repeat' split at h
    all_goals first
      | exact ih _ _ _ h
      | (rename_i e2 hs
         have h2 : e2 = e := by
           have h3 := congrArg Prod.snd h
           simpa using h3
         subst h2
         exact execQueryStep_fatal _ _ _ hs)
      | (rcases hr : rowLoop exec s t rs "" with ⟨l2, r2⟩
         rw [hr] at h
         have h2 : r2 = some e := congrArg Prod.snd h
         subst h2
         exact ih _ _ _ hr)

/-- C3 counterexample.  A non-ignorable statement error does not abort the
destination transaction: `ApplyEventQueries` returns the error, yet the
deferred `tx.Commit()` still commits, with the earlier statements of the
same transaction already executed — so partial effects are committed,
contradicting the claim. -/
theorem claimC3_counterexample :
    (applyEventQueries (fun _ => none) c3exec 1 none none c3entry).returnedErr = some c3err ∧
    IgnoreError c3err = false ∧
    (applyEventQueries (fun _ => none) c3exec 1 none none c3entry).commitAttempted = true ∧
    (applyEventQueries (fun _ => none) c3exec 1 none none c3entry).committed = true ∧
    "create table ok" ∈ (applyEventQueries (fun _ => none) c3exec 1 none none c3entry).txExecuted ∧
    "insert after" ∉ (applyEventQueries (fun _ => none) c3exec 1 none none c3entry).txExecuted := by
  decide

/-- C3 (amended).  A statement error with `IgnoreError` is swallowed, with
a warning exactly when `IgnoreExistsError` fails; a non-ignorable error
stops the statement loops and is returned to the caller; but the
transaction is not aborted: once begun, the deferred commit is always
attempted, and with a healthy destination it commits the statements already
executed. -/
theorem claimC3_amended :
    (∀ (exec : String → Option DBErr) (q : String) (e : DBErr),
      exec q = some e → IgnoreError e = true →
      execQueryStep exec q = ExecOutcome.ignored (!IgnoreExistsError e)) ∧
    (∀ (exec : String → Option DBErr) (q : String) (e : DBErr),
      exec q = some e → IgnoreError e = false →
      execQueryStep exec q = ExecOutcome.fatal e) ∧
    (∀ (exec : String → Option DBErr) (qs : List String) (l : List String) (e : DBErr),
      runQueries exec qs = (l, some e) → IgnoreError e = false) ∧
    (∀ (exec : String → Option DBErr) (s t : String) (rows : List (List (Option String)))
      (buf : String) (l : List String) (e : DBErr),
      rowLoop exec s t rows buf = (l, some e) → IgnoreError e = false) ∧
    (∀ (execConn exec : String → Option DBErr) (nConns : Nat) (entry : DumpEntry),
      (applyEventQueries execConn exec nConns none none entry).preTxErr = none →
      (applyEventQueries execConn exec nConns none none entry).commitAttempted = true ∧
      (applyEventQueries execConn exec nConns none none entry).committed = true) := by
  refine ⟨?_, ?_, ?_, ?_, ?_⟩
  · intro exec q e h hi
    simp [execQueryStep, h, hi]
  · intro exec q e h hi
    simp [execQueryStep, h, hi]
  · intro exec qs l e h
    exact runQueries_fatal exec qs l e h
  · intro exec s t rows buf l e h
    exact rowLoop_fatal exec s t rows buf l e h
  · intro execConn exec nConns entry h
    unfold applyEventQueries at h ⊢
    rcases hD : runQueries exec
        ([entry.systemVariablesStatement, entry.sqlMode, entry.dbSQL] ++ entry.tbSQL) with ⟨l1, r1⟩
    rcases hE : rowLoop exec entry.tableSchema entry.tableName entry.valuesX "" with ⟨l2, r2⟩
    split_ifs at h ⊢ <;>
      rcases hA : execConn entry.systemVariablesStatement with _ | e1 <;>
        rcases hB : execConn entry.sqlMode with _ | e2 <;>
          rcases hC : exec fkOffQuery with _ | e3 <;>
            rcases r1 with _ | e4 <;>
              simp_all [finishTx]

/-- Witness for C3 (amended): an ignorable existence conflict is swallowed
without a warning, and a clean run commits. -/
theorem claimC3_amended_witness :
    execQueryStep (fun _ => some ⟨"already exists", true, true⟩) "q" =
      ExecOutcome.ignored false ∧
    (applyEventQueries (fun _ => none) (fun _ => none) 1 none none c3entry).committed = true := by
  constructor
  · have h := claimC3_amended.1 (fun _ => some ⟨"already exists", true, true⟩) "q"
      ⟨"already exists", true, true⟩ rfl rfl
    simpa using h
  · exact (claimC3_amended.2.2.2.2 (fun _ => none) (fun _ => none) 1 c3entry rfl).2

/-! ### C4: bulk-load row batching -/

/-- Shifting the accumulator out of the byte-length fold. -/
theorem byteFold_shift (l : List Char) (n : Nat) :
    l.foldl (fun m c => m + c.utf8Size) n = n + l.foldl (fun m c => m + c.utf8Size) 0 := by
  induction l generalizing n with
  | nil => simp
  | cons c cs ih =>
    simp only [List.foldl_cons]
    rw [ih, ih (0 + c.utf8Size)]
    omega

/-- Byte length is additive over append. -/
theorem strByteLen_append (a b : String) :
    strByteLen (a ++ b) = strByteLen a + strByteLen b := by
  unfold strByteLen
  rw [String.data_append, List.foldl_append, byteFold_shift]

/-- A rendered statement is never empty. -/
theorem strByteLen_renderStmt_ne (s t : String) (g : List (List (Option String))) :
    strByteLen (renderStmt s t g) ≠ 0 := by
  unfold renderStmt stmtHeader
  simp only [strByteLen_append]
  have h2 : strByteLen "replace into " = 13 := by decide
  omega

/-- Peeling the head off a comma join. -/
theorem joinComma_cons_tail (x : String) (xs : List String) :
    joinComma (x :: xs) = x ++ commaTail xs := by
  induction xs generalizing x with
  | nil => simp [joinComma, commaTail]
  | cons y ys ih => simp [joinComma, commaTail, ih, String.append_assoc]

/-- The cell fold of the renderer, after the first cell. -/
theorem rowSQLCells_aux (cells : List (Option String)) (p : String) :
    (cells.foldl
      (fun (acc : String × Bool) cell =>
        let withSep := if acc.2 then acc.1 else acc.1 ++ ","
        match cell with
        | some v => (withSep ++ sq ++ escapeValue v ++ sq, false)
        | none => (withSep ++ "NULL", false))
      (p, false)).1 = p ++ commaTail (cells.map cellSQL) := by
  induction cells generalizing p with
  | nil => simp [commaTail]
  | cons c cs ih =>
    cases c with
    | none =>
      simp only [List.foldl_cons, List.map_cons]
      rw [ih]
      simp [commaTail, cellSQL, String.append_assoc]
    | some v =>
      simp only [List.foldl_cons, List.map_cons]
      rw [ih]
      simp [commaTail, cellSQL, String.append_assoc]

/-- The renderer's cell loop produces the comma-joined cell list. -/
theorem rowSQLCells_eq (cells : List (Option String)) :
    rowSQLCells cells = joinComma (cells.map cellSQL) := by
  cases cells with
  | nil => rfl
  | cons c cs =>
    rw [List.map_cons, joinComma_cons_tail]
    cases c with
    | none => exact rowSQLCells_aux cs "NULL"
    | some v => exact rowSQLCells_aux cs (sq ++ escapeValue v ++ sq)

/-- Splitting the literal of the statement opener. -/
theorem lit_values_split : (" values (" : String) = " values " ++ "(" := by decide

/-- Splitting the literal of the row separator. -/
theorem lit_comma_split : (",(" : String) = "," ++ "(" := by decide

/-- Two-element step of a comma join. -/
theorem joinComma_cons2 (x x2 : String) (l : List String) :
    joinComma (x :: x2 :: l) = x ++ "," ++ joinComma (x2 :: l) := rfl

/-- The opening statement of the render loop is the rendered singleton
batch. -/
theorem renderStmt_single (s t : String) (r : List (Option String)) :
    "replace into " ++ escapeName s ++ "." ++ escapeName t ++ " values (" ++ rowSQLCells r ++ ")" =
      renderStmt s t [r] := by
  unfold renderStmt stmtHeader rowFragment
  rw [rowSQLCells_eq]
  simp only [List.map_cons, List.map_nil, joinComma]
  rw [lit_values_split]
  simp only [String.append_assoc]

/-- Appending one piece to a nonempty comma join. -/
theorem joinComma_append_one (xs : List String) (y : String) (h : xs ≠ []) :
    joinComma (xs ++ [y]) = joinComma xs ++ "," ++ y := by
  induction xs with
  | nil => exact absurd rfl h
  | cons x xs ih =>
    cases xs with
    | nil => rfl
    | cons x2 xs2 =>
      have h2 := ih (by simp)
      simp only [List.cons_append] at h2 ⊢
      rw [joinComma_cons2 x x2 (xs2 ++ [y]), h2, joinComma_cons2 x x2 xs2]
      simp only [String.append_assoc]

/-- Extending the current statement of the render loop is rendering the
extended batch. -/
theorem renderStmt_snoc (s t : String) (acc : List (List (Option String)))
    (r : List (Option String)) (h : acc ≠ []) :
    renderStmt s t acc ++ ",(" ++ rowSQLCells r ++ ")" = renderStmt s t (acc ++ [r]) := by
  unfold renderStmt
  rw [rowSQLCells_eq, List.map_append, List.map_singleton,
    joinComma_append_one _ _ (by simpa using h)]
  unfold rowFragment
  rw [lit_comma_split]
  simp only [String.append_assoc]

/-- The render loop with an all-succeeding destination produces exactly the
spec-side greedy batches. -/
theorem rowLoop_render (s t : String) :
    ∀ (rows acc : List (List (Option String))),
      (rowLoop (fun _ => none) s t rows (if acc.isEmpty then "" else renderStmt s t acc)).1 =
        (chunkRows s t rows acc).map (renderStmt s t) := by
  intro rows
  induction rows with
  | nil => intro acc; simp [rowLoop, chunkRows]
  | cons r rs ih =>
    intro acc
    have hbuf1 : (if strByteLen (if acc.isEmpty then "" else renderStmt s t acc) = 0
        then "replace into " ++ escapeName s ++ "." ++ escapeName t ++ " values ("
        else (if acc.isEmpty then "" else renderStmt s t acc) ++ ",(") ++ rowSQLCells r ++ ")" =
        renderStmt s t (acc ++ [r]) := by
      cases acc with
      | nil =>
        simp only [List.isEmpty_nil, if_true]
        rw [if_pos (by decide)]
        exact renderStmt_single s t r
      | cons a as =>
        simp only [List.isEmpty_cons, if_false, Bool.false_eq_true]
        rw [if_neg (strByteLen_renderStmt_ne s t (a :: as))]
        exact renderStmt_snoc s t (a :: as) r (by simp)
    simp only [rowLoop, chunkRows]
    rw [hbuf1]
    by_cases hc : (rs.isEmpty || decide (BufSizeLimit ≤ strByteLen (renderStmt s t (acc ++ [r])))) = true
    · rw [if_pos hc, if_pos hc]
      have h2 := ih []
      simp only [List.isEmpty_nil, if_true] at h2
      simp only [execQueryStep, List.map_cons]
      rw [← h2]
    · rw [if_neg hc, if_neg hc]
      have h2 := ih (acc ++ [r])
      have hne : (acc ++ [r]).isEmpty = false := by simp
      rw [hne] at h2
      simpa using h2

/-- C4.  Bulk-load row batching: an empty values matrix renders no row SQL;
a nil cell renders as the unquoted token `NULL` and a non-nil cell renders
single-quoted with MySQL escaping, comma-joined inside the row parentheses;
and the emitted statements are exactly the spec-side greedy batches — a
statement is closed exactly when its rendered byte size has reached 1 MiB
or the final row has been emitted. -/
theorem claimC4 :
    (∀ s t, renderBatches s t [] = []) ∧
    (∀ cells, rowSQLCells cells = joinComma (cells.map cellSQL)) ∧
    cellSQL none = "NULL" ∧
    (∀ v, cellSQL (some v) = sq ++ escapeValue v ++ sq) ∧
    (∀ s t rows, renderBatches s t rows = specBatches s t rows) := by
  refine ⟨fun s t => rfl, rowSQLCells_eq, rfl, fun v => rfl, ?_⟩
  intro s t rows
  unfold renderBatches specBatches
  have h := rowLoop_render s t rows []
  simpa using h

/-! ### C9: acknowledgement ordering with backpressure -/

/-- C9.  In the incremental subscription callback: a non-final segment is
acknowledged with nothing enqueued; a final segment is acknowledged only
after the reassembled payload has been enqueued (the ack strictly follows
the enqueue in the event trace, which is what delays the ack while the
bounded queue is full); and if shutdown wins the select, no ack is ever
published. -/
theorem claimC9 (handleRes : Except String Bool) (ackErr : Option String) (sel : SelectPick) :
    (handleRes = Except.ok false → ackErr = none →
      IncrEvent.ackPublished ∈ incrSubscribeHandler handleRes ackErr sel ∧
      IncrEvent.enqueued ∉ incrSubscribeHandler handleRes ackErr sel) ∧
    (handleRes = Except.ok true → sel = SelectPick.queueReady → ackErr = none →
      IncrEvent.enqueued ∈ incrSubscribeHandler handleRes ackErr sel ∧
      IncrEvent.ackPublished ∈ incrSubscribeHandler handleRes ackErr sel ∧
      (incrSubscribeHandler handleRes ackErr sel).indexOf IncrEvent.enqueued <
        (incrSubscribeHandler handleRes ackErr sel).indexOf IncrEvent.ackPublished) ∧
    (handleRes = Except.ok true → sel = SelectPick.shutdownClosed →
      IncrEvent.ackPublished ∉ incrSubscribeHandler handleRes ackErr sel) := by
  refine ⟨?_, ?_, ?_⟩
  · intro h1 h2; subst h1; subst h2; cases sel <;> decide
  · intro h1 h2 h3; subst h1; subst h2; subst h3; decide
  · intro h1 h2; subst h1; subst h2
    simp [incrSubscribeHandler]

/-- Witness for C9: the final-segment trace with a ready queue enqueues,
then acks. -/
theorem claimC9_witness :
    IncrEvent.enqueued ∈ incrSubscribeHandler (Except.ok true) none SelectPick.queueReady ∧
    (incrSubscribeHandler (Except.ok true) none SelectPick.queueReady).indexOf
      IncrEvent.enqueued <
      (incrSubscribeHandler (Except.ok true) none SelectPick.queueReady).indexOf
        IncrEvent.ackPublished :=
  ⟨((claimC9 (Except.ok true) none SelectPick.queueReady).2.1 rfl rfl rfl).1,
   ((claimC9 (Except.ok true) none SelectPick.queueReady).2.1 rfl rfl rfl).2.2⟩

/-! ### C6: column-reference resolution -/

/-- C6 counterexample.  `checkColumnByName` reports `ambiguous = true` for
the table-qualified reference `t.c` when two schemas both contain a table
`t` with column `c` — the reference is not a bare column name, refuting
"ambiguous exactly for bare names found in more than one table". -/
theorem claimC6_counterexample :
    (checkColumnByName exC6Cat exC6Ref).2 = true ∧ exC6Ref.table ≠ "" := by
  constructor
  · rfl
  · decide

/-- One inner bump-scan of the bare-column case, as a function of the
number of matching tables. -/
theorem innerScan_count (colName : String) (tables : List (String × List String)) :
    ∀ (b a : Bool),
      tables.foldl
        (fun acc p => if tableExistCol p.2 colName then (true, acc.2 || acc.1) else acc)
        (b, a) =
      (b || decide (1 ≤ (tables.filter fun q => tableExistCol q.2 colName).length),
       a || (decide (2 ≤ (tables.filter fun q => tableExistCol q.2 colName).length) ||
         (b && decide (1 ≤ (tables.filter fun q => tableExistCol q.2 colName).length)))) := by
  induction tables with
  | nil => intro b a; simp
  | cons p ps ih =>
    intro b a
    by_cases hp : tableExistCol p.2 colName
    · simp only [List.foldl_cons, hp, if_true, List.filter_cons, ih]
      by_cases h1 : 1 ≤ (ps.filter fun q => tableExistCol q.2 colName).length <;>
        by_cases h2 : 2 ≤ (ps.filter fun q => tableExistCol q.2 colName).length <;>
        cases b <;> cases a <;>
        simp_all <;> omega
    · simp only [List.foldl_cons, hp, if_false, List.filter_cons, ih]
      simp [hp]

/-- One schema step of the scan bumps the pair according to its hit
count. -/
theorem scanSchemaStep_count (tableName colName : String)
    (tables : List (String × List String))
    (ht : tableName = "" → tables.lookup "" = none) (b a : Bool) :
    scanSchemaStep tableName colName (b, a) tables =
      (b || decide (1 ≤ schemaHits tableName colName tables),
       a || (decide (2 ≤ schemaHits tableName colName tables) ||
         (b && decide (1 ≤ schemaHits tableName colName tables)))) := by
  by_cases hq : tableName = ""
  · have hl := ht hq
    subst hq
    unfold scanSchemaStep schemaHits
    rw [hl]
    simp only [ne_eq, not_true_eq_false, if_false, ite_false]
    exact innerScan_count colName tables b a
  · unfold scanSchemaStep schemaHits
    simp only [ne_eq, hq, not_false_eq_true, if_true, ite_true]
    cases hl : tables.lookup tableName with
    | none => simp
    | some tb =>
      by_cases hx : tableExistCol tb colName <;> cases b <;> cases a <;> simp [hx]

/-- Composing two bump counts. -/
theorem bump_compose (b a : Bool) (k m : Nat) :
    (b || decide (1 ≤ k) || decide (1 ≤ m),
     a || (decide (2 ≤ k) || b && decide (1 ≤ k)) ||
       (decide (2 ≤ m) || (b || decide (1 ≤ k)) && decide (1 ≤ m))) =
    (b || decide (1 ≤ k + m), a || (decide (2 ≤ k + m) || b && decide (1 ≤ k + m))) := by
  by_cases h1 : 1 ≤ k <;> by_cases h2 : 2 ≤ k <;> by_cases h3 : 1 ≤ m <;> by_cases h4 : 2 ≤ m <;>
    cases b <;> cases a <;> simp_all <;> omega

/-- The whole scan counts resolutions across every schema. -/
theorem scanFold_count (tableName colName : String) (cat : Catalog)
    (ht : tableName = "" → ∀ p ∈ cat, p.2.lookup "" = none) :
    ∀ b a, cat.foldl (fun acc p => scanSchemaStep tableName colName acc p.2) (b, a) =
      (b || decide (1 ≤ (cat.map fun p => schemaHits tableName colName p.2).sum),
       a || (decide (2 ≤ (cat.map fun p => schemaHits tableName colName p.2).sum) ||
         (b && decide (1 ≤ (cat.map fun p => schemaHits tableName colName p.2).sum)))) := by
  induction cat with
  | nil => intro b a; simp
  | cons p ps ih =>
    intro b a
    have hp : tableName = "" → p.2.lookup "" = none := fun hq => ht hq p (by simp)
    have hps : tableName = "" → ∀ q ∈ ps, q.2.lookup "" = none :=
      fun hq q hm => ht hq q (by simp [hm])
    simp only [List.foldl_cons, List.map_cons, List.sum_cons]
    rw [scanSchemaStep_count tableName colName p.2 hp, ih hps]
    exact bump_compose b a _ _

/-- Filter length as a sum of indicators. -/
theorem filterLen_eq_sum {α : Type} (p : α → Bool) (l : List α) :
    (l.filter p).length = (l.map fun x => if p x then 1 else 0).sum := by
  induction l with
  | nil => rfl
  | cons x xs ih =>
    by_cases hx : p x <;> simp [List.filter_cons, hx, ih] <;> omega

/-- The resolution count is the sum of per-schema hits. -/
theorem resolutionCount_eq_sum (cat : Catalog) (c : ColumnNameRef) :
    resolutionCount cat c = (cat.map fun p => schemaHits c.table c.name p.2).sum := by
  unfold resolutionCount schemaHits
  by_cases hq : c.table = ""
  · simp [hq]
  · simp only [ne_eq, hq, not_false_eq_true, if_true, ite_true]
    rw [filterLen_eq_sum]
    apply congrArg List.sum
    apply List.map_congr_left
    intro p hm
    cases hl : p.2.lookup c.table with
    | none => simp [hl]
    | some tb => by_cases hx : tableExistCol tb c.name <;> simp [hl, hx]

/-- C6 (amended).  `checkColumnByName` resolves a schema-qualified
reference against that schema only, with `ambiguous = false`; for a
reference without schema qualifier (table-qualified or bare), it reports
existence exactly when at least one catalog table resolves it and
`ambiguous = true` exactly when more than one catalog table resolves it.
The hypotheses rule out empty schema or table names in the catalog. -/
theorem claimC6_amended (cat : Catalog) (c : ColumnNameRef)
    (hs : cat.lookup "" = none)
    (ht : ∀ p ∈ cat, p.2.lookup "" = none) :
    checkColumnByName cat c =
      if c.schema ≠ "" then
        ((match cat.lookup c.schema with
          | some tables =>
            match tables.lookup c.table with
            | some tb => tableExistCol tb c.name
            | none => false
          | none => false), false)
      else
        (decide (1 ≤ resolutionCount cat c), decide (2 ≤ resolutionCount cat c)) := by
  unfold checkColumnByName
  by_cases hcs : c.schema = ""
  · rw [hcs, hs]
    simp only [ne_eq, not_true_eq_false, if_false, ite_false]
    rw [scanFold_count c.table c.name cat (fun _ => ht), resolutionCount_eq_sum]
    simp [hcs]
  · simp only [ne_eq, hcs, not_false_eq_true, if_true, ite_true]
    cases hl : cat.lookup c.schema with
    | none => simp [hcs]
    | some tables =>
      dsimp only
      cases hl2 : tables.lookup c.table with
      | none => rfl
      | some tb => rfl

/-- Witness for C6 (amended): a bare column present in two catalog tables
is found and ambiguous. -/
theorem claimC6_amended_witness :
    checkColumnByName exC6Cat ⟨"", "", "c"⟩ = (true, true) := by
  have h := claimC6_amended exC6Cat ⟨"", "", "c"⟩ rfl (by decide)
  rw [h]
  decide

/-! ### C10: the merge's error result is always nil

Every helper of `mergeAlterToTable` satisfies `ResNice`: it either
succeeds, traps, or performs one of the `return oldTable, nil` exits — and
each such exit carries a nil error. -/

/-- Ok results are nice. -/
theorem resNice_ok {α : Type} (a : α) : ResNice (Except.ok (ε := MergeExit) a) := trivial

/-- Traps are nice. -/
theorem resNice_trap {α : Type} (p : GoTrap) :
    ResNice (Except.error (MergeExit.trap p) : Except MergeExit α) := trivial

/-- The merge's early exits carry a nil error. -/
theorem resNice_early {α : Type} (t : CreateTableV) (st : MergeState) :
    ResNice (Except.error (MergeExit.early t none st) : Except MergeExit α) := rfl

/-- Niceness is preserved by bind. -/
theorem resNice_bind {α β : Type} {x : Except MergeExit α} {f : α → Except MergeExit β}
    (hx : ResNice x) (hf : ∀ a, ResNice (f a)) : ResNice (x >>= f) := by
  cases x with
  | ok a => simpa [Bind.bind, Except.bind] using hf a
  | error ex => simpa [Bind.bind, Except.bind] using hx

/-- Niceness of the slice and heap primitives. -/
theorem resNice_getColCell (st : MergeState) (id : Nat) : ResNice (getColCell st id) := by
  unfold getColCell; split <;> trivial

/-- Niceness of constraint dereference. -/
theorem resNice_getConCell (st : MergeState) (id : Nat) : ResNice (getConCell st id) := by
  unfold getConCell; split <;> trivial

/-- Niceness of array fetch. -/
theorem resNice_getRefArr (st : MergeState) (aid : Nat) : ResNice (getRefArr st aid) := by
  unfold getRefArr; split <;> trivial

/-- Niceness of option-array fetch. -/
theorem resNice_getOptArr (st : MergeState) (aid : Nat) : ResNice (getOptArr st aid) := by
  unfold getOptArr; split <;> trivial

/-- Niceness of range reads of cell-id slices. -/
theorem resNice_readRef (st : MergeState) (s : GoSlice) (i : Nat) : ResNice (readRef st s i) := by
  unfold readRef
  exact resNice_bind (resNice_getRefArr _ _) (fun arr => by split <;> trivial)

/-- Niceness of range reads of option slices. -/
theorem resNice_readOpt (st : MergeState) (s : GoSlice) (i : Nat) : ResNice (readOpt st s i) := by
  unfold readOpt
  exact resNice_bind (resNice_getOptArr _ _) (fun arr => by split <;> trivial)

/-- Niceness of checked option reads. -/
theorem resNice_readOptIdx (st : MergeState) (s : GoSlice) (i : Nat) :
    ResNice (readOptIdx st s i) := by
  unfold readOptIdx
  split
  · exact resNice_readOpt _ _ _
  · trivial

/-- Niceness of indexed writes to cell-id slices. -/
theorem resNice_refWrite (st : MergeState) (s : GoSlice) (i x : Nat) :
    ResNice (refWrite st s i x) := by
  unfold refWrite
  split
  · exact resNice_bind (resNice_getRefArr _ _) (fun arr => trivial)
  · trivial

/-- Niceness of indexed writes to option slices. -/
theorem resNice_optWrite (st : MergeState) (s : GoSlice) (i : Nat) (v : ColumnOption) :
    ResNice (optWrite st s i v) := by
  unfold optWrite
  split
  · exact resNice_bind (resNice_getOptArr _ _) (fun arr => trivial)
  · trivial

/-- Niceness of in-place removal on cell-id slices. -/
theorem resNice_refShrink (st : MergeState) (s : GoSlice) (i : Nat) :
    ResNice (refShrink st s i) := by
  unfold refShrink
  split
  · exact resNice_bind (resNice_getRefArr _ _) (fun arr => trivial)
  · trivial

/-- Niceness of in-place removal on option slices. -/
theorem resNice_optShrink (st : MergeState) (s : GoSlice) (i : Nat) :
    ResNice (optShrink st s i) := by
  unfold optShrink
  split
  · exact resNice_bind (resNice_getOptArr _ _) (fun arr => trivial)
  · trivial

/-- Niceness of single-element append. -/
theorem resNice_refAppend1 (st : MergeState) (s : GoSlice) (x : Nat) :
    ResNice (refAppend1 st s x) := by
  unfold refAppend1
  exact resNice_bind (resNice_getRefArr _ _) (fun arr => by split <;> trivial)

/-- Niceness of option-slice element listing. -/
theorem resNice_optElemsE (st : MergeState) (os : Option GoSlice) :
    ResNice (optElemsE st os) := by
  unfold optElemsE
  split
  · trivial
  · exact resNice_bind (resNice_getOptArr _ _) (fun arr => trivial)

/-- Niceness of multi-element option append. -/
theorem resNice_optAppendMany (st : MergeState) (cur : Option GoSlice)
    (elems : List ColumnOption) : ResNice (optAppendMany st cur elems) := by
  unfold optAppendMany
  split
  · trivial
  · exact resNice_bind (resNice_getOptArr _ _) (fun arr => by split <;> trivial)

/-- Niceness of column-name dereference. -/
theorem resNice_derefCI (c : Option CIStr) : ResNice (derefCI c) := by
  unfold derefCI; split <;> trivial

/-- Niceness of `NewColumns[0]`. -/
theorem resNice_listIdx0 (xs : List Nat) : ResNice (listIdx0 xs) := by
  unfold listIdx0; split <;> trivial

/-- Niceness of `HasOneInOptions`. -/
theorem resNice_hasOneInOptions (st : MergeState) (os : Option GoSlice) (tp : ColOptionTp) :
    ResNice (hasOneInOptions st os tp) := by
  unfold hasOneInOptions
  exact resNice_bind (resNice_optElemsE _ _) (fun elems => trivial)

/-- Niceness of constraint-list dereference. -/
theorem resNice_getConCells (st : MergeState) :
    ∀ ids, ResNice (getConCells st ids) := by
  intro ids
  induction ids with
  | nil => trivial
  | cons id rest ih =>
    simp only [getConCells]
    exact resNice_bind (resNice_getConCell _ _) (fun c =>
      resNice_bind ih (fun cs => trivial))

/-- Niceness of column-list dereference. -/
theorem resNice_getColCells (st : MergeState) :
    ∀ ids, ResNice (getColCells st ids) := by
  intro ids
  induction ids with
  | nil => trivial
  | cons id rest ih =>
    simp only [getColCells]
    exact resNice_bind (resNice_getColCell _ _) (fun c =>
      resNice_bind ih (fun cs => trivial))

/-- Niceness of the PK-option column loop. -/
theorem resNice_colsAnyPKOpt (st : MergeState) :
    ∀ cells acc, ResNice (colsAnyPKOpt st cells acc) := by
  intro cells
  induction cells with
  | nil => intro acc; trivial
  | cons c rest ih =>
    intro acc
    simp only [colsAnyPKOpt]
    exact resNice_bind (resNice_hasOneInOptions _ _ _) (fun h => ih _)

/-- Niceness of `hasPrimaryKey`. -/
theorem resNice_hasPrimaryKeyGo (st : MergeState) (t : CreateTableV) :
    ResNice (hasPrimaryKeyGo st t) := by
  unfold hasPrimaryKeyGo
  exact resNice_bind (resNice_getRefArr _ _) (fun conArr =>
    resNice_bind (resNice_getConCells _ _) (fun cons => by
      dsimp only
      split
      · trivial
      · exact resNice_bind (resNice_getRefArr _ _) (fun colArr =>
          resNice_bind (resNice_getColCells _ _) (fun cols =>
            resNice_colsAnyPKOpt _ _ _))))

/-- Niceness of the DropColumn scan. -/
theorem resNice_dropColScan (h0 : GoSlice) (oldCol : Option CIStr) :
    ∀ idxs cur found st, ResNice (dropColScan h0 oldCol idxs cur found st) := by
  intro idxs
  induction idxs with
  | nil => intro cur found st; trivial
  | cons i rest ih =>
    intro cur found st
    simp only [dropColScan]
    exact resNice_bind (resNice_readRef _ _ _) (fun cid =>
      resNice_bind (resNice_getColCell _ _) (fun cell =>
        resNice_bind (resNice_derefCI _) (fun target => by
          split
          · exact resNice_bind (resNice_refShrink _ _ _) (fun s2 => ih _ _ _)
          · exact ih _ _ _)))

/-- Niceness of the ChangeColumn scan. -/
theorem resNice_changeColScan (h0 : GoSlice) (spec : AlterSpecV) :
    ∀ idxs found st, ResNice (changeColScan h0 spec idxs found st) := by
  intro idxs
  induction idxs with
  | nil => intro found st; trivial
  | cons i rest ih =>
    intro found st
    simp only [changeColScan]
    exact resNice_bind (resNice_readRef _ _ _) (fun cid =>
      resNice_bind (resNice_getColCell _ _) (fun cell =>
        resNice_bind (resNice_derefCI _) (fun target => by
          split
          · exact resNice_bind (resNice_listIdx0 _) (fun ncId =>
              resNice_bind (resNice_refWrite _ _ _ _) (fun st2 => ih _ _))
          · exact ih _ _)))

/-- Niceness of the ModifyColumn scan. -/
theorem resNice_modifyColScan (h0 : GoSlice) (spec : AlterSpecV) :
    ∀ idxs found st, ResNice (modifyColScan h0 spec idxs found st) := by
  intro idxs
  induction idxs with
  | nil => intro found st; trivial
  | cons i rest ih =>
    intro found st
    simp only [modifyColScan]
    exact resNice_bind (resNice_readRef _ _ _) (fun cid =>
      resNice_bind (resNice_getColCell _ _) (fun cell =>
        resNice_bind (resNice_listIdx0 _) (fun ncId =>
          resNice_bind (resNice_getColCell _ _) (fun ncCell => by
            split
            · exact resNice_bind (resNice_refWrite _ _ _ _) (fun st2 => ih _ _)
            · exact ih _ _))))

/-- Niceness of the drop-default option loop. -/
theorem resNice_optShrinkLoop (cellId : Nat) (h0 : GoSlice) (tp : ColOptionTp) :
    ∀ idxs st, ResNice (optShrinkLoop cellId h0 tp idxs st) := by
  intro idxs
  induction idxs with
  | nil => intro st; trivial
  | cons i rest ih =>
    intro st
    simp only [optShrinkLoop]
    exact resNice_bind (resNice_readOpt _ _ _) (fun op => by
      split
      · exact resNice_bind (resNice_getColCell _ _) (fun cell => by
          split
          · trivial
          · exact resNice_bind (resNice_optShrink _ _ _) (fun s2 => ih _))
      · exact ih _)

/-- Niceness of the set-default option loop. -/
theorem resNice_optReplaceLoop (colId ncId : Nat) (h0 : GoSlice) (tp : ColOptionTp) :
    ∀ idxs st, ResNice (optReplaceLoop colId ncId h0 tp idxs st) := by
  intro idxs
  induction idxs with
  | nil => intro st; trivial
  | cons i rest ih =>
    intro st
    simp only [optReplaceLoop]
    exact resNice_bind (resNice_readOpt _ _ _) (fun op => by
      split
      · exact resNice_bind (resNice_getColCell _ _) (fun ncCell => by
          split
          · trivial
          · exact resNice_bind (resNice_readOptIdx _ _ _) (fun v =>
              resNice_bind (resNice_getColCell _ _) (fun cell => by
                split
                · trivial
                · exact resNice_bind (resNice_optWrite _ _ _ _) (fun st2 => ih _)))
          )
      · exact ih _)

/-- Niceness of the AlterColumn scan. -/
theorem resNice_alterColScan (h0 : GoSlice) (ncId : Nat) :
    ∀ idxs found st, ResNice (alterColScan h0 ncId idxs found st) := by
  intro idxs
  induction idxs with
  | nil => intro found st; trivial
  | cons i rest ih =>
    intro found st
    simp only [alterColScan]
    exact resNice_bind (resNice_readRef _ _ _) (fun cid =>
      resNice_bind (resNice_getColCell _ _) (fun cell =>
        resNice_bind (resNice_getColCell _ _) (fun ncCell => by
          split
          · split
            · split
              · exact ih _ _
              · exact resNice_bind (resNice_optShrinkLoop _ _ _ _ _) (fun st2 => ih _ _)
            · exact resNice_bind (resNice_hasOneInOptions _ _ _) (fun hasDef => by
                split
                · split
                  · exact ih _ _
                  · exact resNice_bind (resNice_optReplaceLoop _ _ _ _ _ _) (fun st2 => ih _ _)
                · exact resNice_bind (resNice_optElemsE _ _) (fun elems =>
                    resNice_bind (resNice_optAppendMany _ _ _) (fun r =>
                      resNice_bind (resNice_getColCell _ _) (fun cell2 => ih _ _))))
          · exact ih _ _)))

/-- Niceness of the AddColumns duplicate check. -/
theorem resNice_colNameExists (h0 : GoSlice) (ncId : Nat) :
    ∀ idxs acc st, ResNice (colNameExists h0 ncId idxs acc st) := by
  intro idxs
  induction idxs with
  | nil => intro acc st; trivial
  | cons i rest ih =>
    intro acc st
    simp only [colNameExists]
    exact resNice_bind (resNice_readRef _ _ _) (fun cid =>
      resNice_bind (resNice_getColCell _ _) (fun cell =>
        resNice_bind (resNice_getColCell _ _) (fun ncCell => ih _ _)))

/-- Niceness of the AddColumns loop (its early exits carry nil errors). -/
theorem resNice_addColumnsLoop (oldTable : CreateTableV) :
    ∀ ncIds t st, ResNice (addColumnsLoop oldTable ncIds t st) := by
  intro ncIds
  induction ncIds with
  | nil => intro t st; trivial
  | cons ncId rest ih =>
    intro t st
    simp only [addColumnsLoop]
    exact resNice_bind (resNice_colNameExists _ _ _ _ _) (fun ex => by
      split
      · exact resNice_early _ _
      · exact resNice_bind (resNice_refAppend1 _ _ _) (fun r => ih _ _))

/-- Niceness of the DropPrimaryKey constraint loop. -/
theorem resNice_conShrinkTpLoop (h0 : GoSlice) (tp : ConstraintTp) :
    ∀ idxs cur st, ResNice (conShrinkTpLoop h0 tp idxs cur st) := by
  intro idxs
  induction idxs with
  | nil => intro cur st; trivial
  | cons i rest ih =>
    intro cur st
    simp only [conShrinkTpLoop]
    exact resNice_bind (resNice_readRef _ _ _) (fun cid =>
      resNice_bind (resNice_getConCell _ _) (fun cell => by
        split
        · exact resNice_bind (resNice_refShrink _ _ _) (fun s2 => ih _ _)
        · exact ih _ _))

/-- Niceness of the DropPrimaryKey column loop. -/
theorem resNice_dropPKColsLoop (h0 : GoSlice) :
    ∀ idxs st, ResNice (dropPKColsLoop h0 idxs st) := by
  intro idxs
  induction idxs with
  | nil => intro st; trivial
  | cons i rest ih =>
    intro st
    simp only [dropPKColsLoop]
    exact resNice_bind (resNice_readRef _ _ _) (fun cid =>
      resNice_bind (resNice_getColCell _ _) (fun cell => by
        split
        · exact ih _
        · exact resNice_bind (resNice_optShrinkLoop _ _ _ _ _) (fun st2 => ih _)))

/-- Niceness of the DropIndex loop. -/
theorem resNice_conShrinkNameLoop (h0 : GoSlice) (indexName : String) :
    ∀ idxs cur found st, ResNice (conShrinkNameLoop h0 indexName idxs cur found st) := by
  intro idxs
  induction idxs with
  | nil => intro cur found st; trivial
  | cons i rest ih =>
    intro cur found st
    simp only [conShrinkNameLoop]
    exact resNice_bind (resNice_readRef _ _ _) (fun cid =>
      resNice_bind (resNice_getConCell _ _) (fun cell => by
        split
        · exact resNice_bind (resNice_refShrink _ _ _) (fun s2 => ih _ _ _)
        · exact ih _ _ _))

/-- Niceness of the RenameIndex loop. -/
theorem resNice_conRenameLoop (h0 : GoSlice) (oldName newName : String) :
    ∀ idxs found st, ResNice (conRenameLoop h0 oldName newName idxs found st) := by
  intro idxs
  induction idxs with
  | nil => intro found st; trivial
  | cons i rest ih =>
    intro found st
    simp only [conRenameLoop]
    exact resNice_bind (resNice_readRef _ _ _) (fun cid =>
      resNice_bind (resNice_getConCell _ _) (fun cell => by
        split
        · exact ih _ _
        · exact ih _ _))

/-- Niceness of the AddConstraint duplicate check. -/
theorem resNice_conNameExists (h0 : GoSlice) (target : String) :
    ∀ idxs acc st, ResNice (conNameExists h0 target idxs acc st) := by
  intro idxs
  induction idxs with
  | nil => intro acc st; trivial
  | cons i rest ih =>
    intro acc st
    simp only [conNameExists]
    exact resNice_bind (resNice_readRef _ _ _) (fun cid =>
      resNice_bind (resNice_getConCell _ _) (fun cell => ih _ _))

/-- Niceness of the DropColumn phase body. -/
theorem resNice_dropColumnBody (oldTable : CreateTableV) (spec : AlterSpecV)
    (t : CreateTableV) (st : MergeState) : ResNice (dropColumnBody oldTable spec t st) := by
  unfold dropColumnBody
  exact resNice_bind (resNice_dropColScan _ _ _ _ _ _) (fun r => by
    split
    · trivial
    · exact resNice_early _ _)

/-- Niceness of the ChangeColumn phase body. -/
theorem resNice_changeColumnBody (oldTable : CreateTableV) (spec : AlterSpecV)
    (t : CreateTableV) (st : MergeState) : ResNice (changeColumnBody oldTable spec t st) := by
  unfold changeColumnBody
  exact resNice_bind (resNice_changeColScan _ _ _ _ _) (fun r => by
    split
    · trivial
    · exact resNice_early _ _)

/-- Niceness of the ModifyColumn phase body. -/
theorem resNice_modifyColumnBody (oldTable : CreateTableV) (spec : AlterSpecV)
    (t : CreateTableV) (st : MergeState) : ResNice (modifyColumnBody oldTable spec t st) := by
  unfold modifyColumnBody
  exact resNice_bind (resNice_modifyColScan _ _ _ _ _) (fun r => by
    split
    · trivial
    · exact resNice_early _ _)

/-- Niceness of the AlterColumn phase body. -/
theorem resNice_alterColumnBody (oldTable : CreateTableV) (spec : AlterSpecV)
    (t : CreateTableV) (st : MergeState) : ResNice (alterColumnBody oldTable spec t st) := by
  unfold alterColumnBody
  exact resNice_bind (resNice_listIdx0 _) (fun ncId =>
    resNice_bind (resNice_alterColScan _ _ _ _ _) (fun r => by
      split
      · trivial
      · exact resNice_early _ _))

/-- Niceness of the AddColumns phase body. -/
theorem resNice_addColumnsBody (oldTable : CreateTableV) (spec : AlterSpecV)
    (t : CreateTableV) (st : MergeState) : ResNice (addColumnsBody oldTable spec t st) :=
  resNice_addColumnsLoop oldTable spec.newColumns t st

/-- Niceness of the DropPrimaryKey phase body. -/
theorem resNice_dropPrimaryKeyBody (oldTable : CreateTableV) (spec : AlterSpecV)
    (t : CreateTableV) (st : MergeState) : ResNice (dropPrimaryKeyBody oldTable spec t st) := by
  unfold dropPrimaryKeyBody
  exact resNice_bind (resNice_hasPrimaryKeyGo _ _) (fun hasPk => by
    split
    · exact resNice_early _ _
    · exact resNice_bind (resNice_conShrinkTpLoop _ _ _ _ _) (fun r =>
        resNice_bind (resNice_dropPKColsLoop _ _ _) (fun st2 => trivial)))

/-- Niceness of the DropIndex phase body. -/
theorem resNice_dropIndexBody (oldTable : CreateTableV) (spec : AlterSpecV)
    (t : CreateTableV) (st : MergeState) : ResNice (dropIndexBody oldTable spec t st) := by
  unfold dropIndexBody
  exact resNice_bind (resNice_conShrinkNameLoop _ _ _ _ _ _) (fun r => by
    split
    · trivial
    · exact resNice_early _ _)

/-- Niceness of the RenameIndex phase body. -/
theorem resNice_renameIndexBody (oldTable : CreateTableV) (spec : AlterSpecV)
    (t : CreateTableV) (st : MergeState) : ResNice (renameIndexBody oldTable spec t st) := by
  unfold renameIndexBody
  exact resNice_bind (resNice_conRenameLoop _ _ _ _ _ _) (fun r => by
    split
    · trivial
    · exact resNice_early _ _)

/-- Niceness of the AddConstraint phase body. -/
theorem resNice_addConstraintBody (oldTable : CreateTableV) (spec : AlterSpecV)
    (t : CreateTableV) (st : MergeState) : ResNice (addConstraintBody oldTable spec t st) := by
  unfold addConstraintBody
  split
  · trivial
  · exact resNice_bind (resNice_getConCell _ _) (fun conCell => by
      split
      · exact resNice_bind (resNice_hasPrimaryKeyGo _ _) (fun hasPk => by
          split
          · exact resNice_early _ _
          · exact resNice_bind (resNice_refAppend1 _ _ _) (fun r => trivial))
      · exact resNice_bind (resNice_conNameExists _ _ _ _ _) (fun ex => by
          split
          · exact resNice_early _ _
          · exact resNice_bind (resNice_refAppend1 _ _ _) (fun r => trivial)))

/-- Niceness of the spec fold. -/
theorem resNice_foldSpecs
    (body : AlterSpecV → CreateTableV → MergeState → Except MergeExit (CreateTableV × MergeState))
    (hbody : ∀ spec t st, ResNice (body spec t st)) :
    ∀ specs t st, ResNice (foldSpecs body specs t st) := by
  intro specs
  induction specs with
  | nil => intro t st; trivial
  | cons spec rest ih =>
    intro t st
    simp only [foldSpecs]
    exact resNice_bind (hbody _ _ _) (fun r => ih _ _)

/-- Niceness of the merge body. -/
theorem resNice_mergeBody (st0 : MergeState) (oldTable : CreateTableV) (alter : AlterTableV) :
    ResNice (mergeBody st0 oldTable alter) := by
  unfold mergeBody
  exact resNice_bind
    (resNice_foldSpecs _ (resNice_dropColumnBody oldTable) _ _ _) (fun r2 =>
  resNice_bind
    (resNice_foldSpecs _ (resNice_changeColumnBody oldTable) _ _ _) (fun r3 =>
  resNice_bind
    (resNice_foldSpecs _ (resNice_modifyColumnBody oldTable) _ _ _) (fun r4 =>
  resNice_bind
    (resNice_foldSpecs _ (resNice_alterColumnBody oldTable) _ _ _) (fun r5 =>
  resNice_bind
    (resNice_foldSpecs _ (resNice_addColumnsBody oldTable) _ _ _) (fun r6 =>
  resNice_bind
    (resNice_foldSpecs _ (resNice_dropPrimaryKeyBody oldTable) _ _ _) (fun r7 =>
  resNice_bind
    (resNice_foldSpecs _ (resNice_dropIndexBody oldTable) _ _ _) (fun r8 =>
  resNice_bind
    (resNice_foldSpecs _ (resNice_renameIndexBody oldTable) _ _ _) (fun r9 =>
  resNice_bind
    (resNice_foldSpecs _ (resNice_addConstraintBody oldTable) _ _ _) (fun r10 =>
  trivial)))))))))

/-- C10.  Whenever `mergeAlterToTable` returns, the error component is nil:
inapplicable alter specifications are signalled solely by handing back the
original `CreateTable`, never through the error, so a caller checking only
the error cannot detect a rejected merge. -/
theorem claimC10 (st0 : MergeState) (oldTable : CreateTableV) (alter : AlterTableV)
    (r : (CreateTableV × Option String) × MergeState)
    (h : mergeAlterToTable st0 oldTable alter = Except.ok r) : r.1.2 = none := by
  unfold mergeAlterToTable at h
  have hn := resNice_mergeBody st0 oldTable alter
  cases hb : mergeBody st0 oldTable alter with
  | ok x =>
    rw [hb] at h
    simp only [Except.ok.injEq] at h
    rw [← h]
  | error ex =>
    rw [hb] at h
    rw [hb] at hn
    cases ex with
    | trap p => simp at h
    | early t e st =>
      have he : e = none := hn
      simp only [Except.ok.injEq] at h
      rw [← h, he]

/-- Witness for C10: the empty alter merges without error. -/
theorem claimC10_witness :
    mergeAlterToTable exC10St exC10Old exC10Alter =
      Except.ok ((exC10Old, none), exC10St) ∧
    (((exC10Old, none), exC10St) : (CreateTableV × Option String) × MergeState).1.2 = none :=
  ⟨rfl, claimC10 exC10St exC10Old exC10Alter ((exC10Old, none), exC10St) rfl⟩

/-! ### C1: merge atomicity is broken by aliasing -/

/-- C1.  Merge atomicity fails: for `CREATE TABLE t(a, b)` with
`ALTER TABLE t CHANGE COLUMN a a2 …, MODIFY COLUMN zzz …`, the ModifyColumn
specification is inapplicable (no column `zzz`), so the merge performs
`return oldTable, nil` — but the ChangeColumn specification had already
been applied through the backing array shared between `newTable.Cols` and
`oldTable.Cols`, so the returned (original) `CreateTable` now shows column
`a2` instead of `a`: the returned tree does not equal the input tree and a
partial application is visible. -/
theorem claimC1 :
    mergeAlterToTable exC1State exC1Old exC1Alter =
      Except.ok ((exC1Old, none), exC1StateAfter) ∧
    viewTable exC1State exC1Old =
      some ⟨some ⟨"", "t"⟩, [(mkCI "a", []), (mkCI "b", [])], []⟩ ∧
    viewTable exC1StateAfter exC1Old =
      some ⟨some ⟨"", "t"⟩, [(mkCI "a2", []), (mkCI "b", [])], []⟩ ∧
    viewTable exC1StateAfter exC1Old ≠ viewTable exC1State exC1Old ∧
    ((viewTable exC1State exC1Old).map fun v => v.cols.map fun cv => cv.1.l) =
      some ["a", "b"] ∧
    ("zzz" ∈ (["a", "b"] : List String) → False) := by
  refine ⟨rfl, rfl, rfl, by decide, rfl, by decide⟩

end Dtle
